import Mathlib

/-!
Verification development for the n3fjp-map service (`app/main.py`).

The Python program is shallowly embedded:

* Python `float` values are modelled as exact rationals (`ℚ`); the spec's
  "testable properties" are stated over real-valued coordinates and times,
  and none of the claims under study concerns rounding of binary floats.
* Python strings are Lean `String`s; `str.upper`/`str.lower` are modelled
  by `String.toUpper`/`Char.toLower` (faithful on the ASCII data the
  program manipulates: callsigns, grids, band/mode strings).
* A raised exception is modelled as `Option.none`; every `try/except`
  site in the source is modelled by handling that `none`.
* Mutation of the `Hub` object is modelled by explicit state passing:
  each method returns the new `HubState` together with the list of
  payloads it broadcast, in broadcast order.
* `time.time()` is modelled by an explicit `now : ℚ` parameter.
-/

/-! ## Python primitives -/

/-- Python `str.strip()` (leading/trailing whitespace removed). -/
def pyStrip (s : String) : String :=
  ⟨((s.data.dropWhile Char.isWhitespace).reverse.dropWhile Char.isWhitespace).reverse⟩

/-- Python sequence indexing `l[i]`: negative indices count from the end,
an out-of-range index raises (`none`). -/
def pyIndex (l : List Char) (i : ℤ) : Option Char :=
  if 0 ≤ i then l.get? i.toNat
  else if -(l.length : ℤ) ≤ i then l.get? (l.length + i).toNat
  else none

/-- Python `x % y` on floats (result has the sign of `y`; here `y > 0`). -/
def pyMod (x y : ℚ) : ℚ := x - y * (Rat.floor (x / y) : ℚ)

/-- Python `x // y` on floats: floor division. -/
def pyFloorDiv (x y : ℚ) : ℤ := Rat.floor (x / y)

/-- Python `int(x)` on a float: truncation toward zero. -/
def pyTrunc (x : ℚ) : ℤ := Int.tdiv x.num x.den

/-- Python `int(c)` on a one-character digit string: its value, raising
(`none`) on a non-digit. -/
def pyDigit (c : Char) : Option ℕ :=
  if '0' ≤ c ∧ c ≤ '9' then some (c.toNat - 48) else none

/-- The string `"ABCDEFGHIJKLMNOPQRSTUVWXYZ"` bound to `A` in the source. -/
def alphaU : List Char := "ABCDEFGHIJKLMNOPQRSTUVWXYZ".data

/-- The string `"abcdefghijklmnopqrstuvwxyz"` bound to `a` in the source. -/
def alphaL : List Char := "abcdefghijklmnopqrstuvwxyz".data

/-- Python `A.index(c)`: index of the first occurrence, raising (`none`)
when absent. -/
def pyStrIndex (l : List Char) (c : Char) : Option ℕ := l.indexOf? c

/-! ## Geocoding (`maidenhead_from_latlon`, `latlon_from_maidenhead`,
`parse_lon_west_positive`) -/

/-- A lat/lon pair, as returned by `latlon_from_maidenhead`. -/
structure LatLon where
  lat : ℚ
  lon : ℚ
  deriving DecidableEq

/-- `maidenhead_from_latlon(lat, lon, precision=6)` from `app/main.py`.
The source never reads `precision`; the result is always six characters.
`none` models the `IndexError` raised when a scaled coordinate indexes
outside the 26-letter alphabet. -/
def maidenhead_from_latlon (lat lon : ℚ) (_precision : ℕ := 6) : Option String :=
  let lon := lon + 180
  let lat := lat + 90
  let f1 := pyFloorDiv lon 20
  let f2 := pyFloorDiv lat 10
  let r1 := pyFloorDiv (pyMod lon 20) 2
  let r2 := pyTrunc (pyMod lat 10)
  let s1 := pyFloorDiv (pyMod lon 2 * 60) 5
  let s2 := pyFloorDiv (pyMod lat 1 * 60) (5/2)
  match pyIndex alphaU f1, pyIndex alphaU f2, pyIndex alphaL s1, pyIndex alphaL s2 with
  | some c1, some c2, some c5, some c6 =>
      some ⟨[c1, c2] ++ (toString r1).data ++ (toString r2).data ++ [c5, c6]⟩
  | _, _, _, _ => none

/-- `latlon_from_maidenhead(grid)` from `app/main.py`: `none` models both
the explicit `None` returns and the caught exceptions. -/
def latlon_from_maidenhead (grid : String) : Option LatLon :=
  if grid = "" then none else
  let g := (pyStrip grid).data
  if g.length < 4 then none else
  match g.get? 0, g.get? 1, g.get? 2, g.get? 3 with
  | some c0, some c1, some c2, some c3 =>
    (pyStrIndex alphaU c0.toUpper).bind fun i0 =>
    (pyStrIndex alphaU c1.toUpper).bind fun i1 =>
    (pyDigit c2).bind fun d2 =>
    (pyDigit c3).bind fun d3 =>
    let lon : ℚ := (i0 : ℚ) * 20 - 180 + (d2 : ℚ) * 2
    let lat : ℚ := (i1 : ℚ) * 10 - 90 + (d3 : ℚ) * 1
    if 6 ≤ g.length then
      match g.get? 4, g.get? 5 with
      | some c4, some c5 =>
        (pyStrIndex alphaL c4.toLower).bind fun i4 =>
        (pyStrIndex alphaL c5.toLower).bind fun i5 =>
        some { lat := lat + ((i5 : ℚ) * (5/2)) / 60 + ((5/2)/60)/2,
               lon := lon + ((i4 : ℚ) * 5) / 60 + ((5:ℚ)/60)/2 }
      | _, _ => none
    else
      some { lat := lat + 1/2, lon := lon + 1 }
  | _, _, _, _ => none

/-- A decimal numeral accepted by Python's `float()`: optional sign,
digits, optional fractional part.  (The embedding restricts `float()` to
plain decimal notation, which is the only form the wire protocol and the
claims exercise.) -/
def decDigits (l : List Char) : Option ℕ :=
  l.foldl (fun acc c => acc.bind fun n =>
    (pyDigit c).map fun d => n * 10 + d) (some 0)

/-- Python `float(s)` on a plain decimal literal, `none` when unparseable.
The value is assembled with `mkRat` so that it evaluates by kernel
reduction; `mkRat a b = (a : ℚ) / (b : ℚ)` for `b ≠ 0`. -/
def pyFloat (s : String) : Option ℚ :=
  let l := (pyStrip s).data
  let (sign, rest) : ℤ × List Char :=
    match l with
    | '-' :: r => (-1, r)
    | '+' :: r => (1, r)
    | r => (1, r)
  if rest = [] then none else
  match rest.splitOn '.' with
  | [intPart] =>
      if intPart = [] then none else
      (decDigits intPart).map fun n => mkRat (sign * n) 1
  | [intPart, fracPart] =>
      if intPart = [] ∧ fracPart = [] then none else
      (decDigits intPart).bind fun n =>
      (decDigits fracPart).map fun f =>
        mkRat (sign * ((n : ℤ) * 10 ^ fracPart.length + f)) (10 ^ fracPart.length)
  | _ => none

/-- `parse_lon_west_positive(s)` from `app/main.py`: `None`/empty input and
parse failures give `none`, otherwise the sign-flipped value. -/
def parse_lon_west_positive (s : Option String) : Option ℚ :=
  match s with
  | none => none
  | some str =>
      if str = "" then none
      else (pyFloat str).map (fun q => -q)

example : pyFloat "72.7" = some (mkRat 727 10) := by decide
example : pyFloat "-1.25" = some (mkRat (-5) 4) := by decide
example : pyFloat "" = none := by decide
example : pyFloat "abc" = none := by decide
set_option maxRecDepth 4000

example : latlon_from_maidenhead "FN31pr" =
    some { lat := 2003/48, lon := -1745/24 } := by with_unfolding_all decide
example : maidenhead_from_latlon (2003/48) (-1745/24) = some "FN31pr" := by
  with_unfolding_all decide
example : maidenhead_from_latlon (83/2) (-727/10) = some "FN31pm" := by
  with_unfolding_all decide

/-! ## Hub data model (`class Hub` in `app/main.py`)

`WebSocket` handling is an external boundary: `broadcast` is modelled by
returning the list of payloads sent, in order; the subscriber set and the
`ws_clients_gauge` bookkeeping are outside the model. -/

/-- Python `sorted` on strings (stable; `String` ordering is total and
antisymmetric, so any correct sort agrees with Python's). -/
def sortStr (l : List String) : List String := l.insertionSort (fun a b => a ≤ b)

/-- `canonical_station_key(name)`: collapse whitespace runs, strip, upper;
`None` when nothing remains.  (`re.sub(r"\s+", " ", s).strip()` is the
single-space join of the whitespace-separated words of `s`.) -/
def canonical_station_key (name : Option String) : Option String :=
  match name with
  | none => none
  | some n =>
      let cleaned := String.intercalate " " (((n.split Char.isWhitespace).filter (fun w => w ≠ "")))
      if cleaned = "" then none else some cleaned.toUpper

/-- The global origin record `{lat, lon, grid}`. -/
structure OriginR where
  lat : Option ℚ
  lon : Option ℚ
  grid : Option String
  deriving DecidableEq

/-- One `recent_draw` entry `(call, band, mode, ts)`. -/
structure DrawEntry where
  call : String
  band : String
  mode : String
  ts : ℚ
  deriving DecidableEq

/-- One stored `station_origins` entry (a Python dict; absent keys are
`none`).  `sources` is the contributing-feed set, kept as a duplicate-free
list. -/
structure StationEntry where
  name : String
  lat : Option ℚ := none
  lon : Option ℚ := none
  grid : Option String := none
  call : Option String := none
  operator : Option String := none
  band : Option String := none
  mode : Option String := none
  status : Option String := none
  «section» : Option String := none
  country : Option String := none
  message : Option String := none
  sources : List String := []
  last_source : Option String := none
  last_seen : Option ℚ := none
  deriving DecidableEq

/-- Metadata dict handed to `emit_path` / kept in `pending_meta`. -/
structure MetaIn where
  call : Option String := none
  band : Option String := none
  mode : Option String := none
  «section» : Option String := none
  operator : Option String := none
  country : Option String := none
  station : Option String := none
  deriving DecidableEq

/-- A destination record `{lat, lon, grid}` (same shape as `OriginR`). -/
abbrev DestR := OriginR

/-- One `recent_paths` ring-buffer record. -/
structure PathRecord where
  id : ℕ
  timestamp : ℚ
  meta : MetaIn
  «from» : OriginR
  «to» : DestR
  deriving DecidableEq

/-- The `path` broadcast payload (a `PathRecord` plus the TTL hint). -/
structure PathPayload where
  id : ℕ
  «from» : OriginR
  «to» : DestR
  meta : MetaIn
  ttl : ℕ
  timestamp : ℚ
  deriving DecidableEq

/-- A `pending_meta` value: metadata/origin snapshot for an async lookup. -/
structure PendingEntry where
  meta : MetaIn
  origin : OriginR
  deriving DecidableEq

/-- The `self.metrics` counters (`ws_clients_gauge` is tracked at the
subscriber boundary, outside this model). -/
structure Metrics where
  frames_parsed_total : ℕ := 0
  paths_drawn_total : ℕ := 0
  sections_worked_total : ℕ := 0
  countries_worked_total : ℕ := 0
  deriving DecidableEq

/-- The `self.state` dict (connection bookkeeping echoed into status
snapshots; the per-connection table is carried opaquely). -/
structure SysState where
  connected : Bool := false
  last_connect_ts : Option ℚ := none
  last_disconnect_ts : Option ℚ := none
  last_event_ts : Option ℚ := none
  last_error : Option String := none
  apiver : Option String := none
  program : Option String := none
  last_raw : Option String := none
  deriving DecidableEq

/-- Authoritative `Hub` state. -/
structure HubState where
  origin : OriginR := ⟨none, none, none⟩
  primary_station_name : String := "Primary Station"
  sys : SysState := {}
  recent_draw : List DrawEntry := []
  recent_paths : List PathRecord := []
  next_path_id : ℕ := 1
  pending_meta : List (String × PendingEntry) := []
  operators_seen : List String := []
  sections_worked : List String := []
  countries_worked : List String := []
  station_origins : List (String × StationEntry) := []
  metrics : Metrics := {}
  deriving DecidableEq

/-- Configuration the Hub reads (module-level constants in the source).
`resolve_country` stands for `resolve_country_key` applied to the
alias/centroid tables loaded at start-up (`none` = falsy result). -/
structure Config where
  band_filter : List String := []
  mode_filter : List String := []
  ttl_seconds : ℕ := 600
  wfd_mode : Bool := false
  prefer_section : Bool := false
  resolve_country : String → Option String := fun c => some c

/-- Python `deque(maxlen=m).append`: drop from the left when full. -/
def dequeAppend (maxlen : ℕ) (l : List α) (x : α) : List α :=
  if l.length < maxlen then l ++ [x] else l.drop (l.length + 1 - maxlen) ++ [x]

/-- The normalized `(call or "", band or "", (mode or "").upper())` key
`should_draw` dedupes on. -/
def drawKey (call band mode : Option String) : String × String × String :=
  (call.getD "", band.getD "", (mode.getD "").toUpper)

/-- `Hub.should_draw(call, band, mode)`: band/mode allow-list check, then
purge of `recent_draw` entries older than 3 time-units, then the
2-time-unit duplicate test; an accepted triple is recorded.  Returns the
verdict and the updated `recent_draw`. -/
def should_draw (cfg : Config) (rd : List DrawEntry)
    (call band mode : Option String) (now : ℚ) : Bool × List DrawEntry :=
  let key := drawKey call band mode
  if cfg.band_filter ≠ [] ∧ key.2.1 ≠ "" ∧ key.2.1 ∉ cfg.band_filter then
    (false, rd)
  else if cfg.mode_filter ≠ [] ∧ key.2.2 ≠ "" ∧ key.2.2 ∉ cfg.mode_filter then
    (false, rd)
  else
    let rd := rd.dropWhile (fun e => now - e.ts > 3)
    if rd.any (fun e => (e.call, e.band, e.mode) = key ∧ now - e.ts < 2) then
      (false, rd)
    else
      (true, dequeAppend 128 rd ⟨key.1, key.2.1, key.2.2, now⟩)

example :
    (should_draw {} [] (some "W1AW") (some "20") (some "cw") 10).2 =
      [⟨"W1AW", "20", "CW", 10⟩] := by with_unfolding_all decide
example :
    (should_draw {} [⟨"W1AW", "20", "CW", 10⟩] (some "W1AW") (some "20") (some "CW") 11).1
      = false := by with_unfolding_all decide

/-- `origin_payload()`: the origin plus the primary station's name. -/
structure OriginNamed where
  lat : Option ℚ
  lon : Option ℚ
  grid : Option String
  name : String
  deriving DecidableEq

/-- The dict returned by `compose_status()`. -/
structure StatusSnap where
  sys : SysState
  origin : OriginR
  primary_station_name : String
  station_origins : List StationEntry
  operators : List String
  sections_worked : List String
  countries_worked : List String
  metrics : Metrics
  wfd_mode : Bool
  prefer_section : Bool
  ttl_seconds : ℕ
  deriving DecidableEq

/-- A pushed `{type, data}` envelope, one constructor per known type. -/
inductive Msg where
  | status (d : StatusSnap)
  | origin (d : OriginNamed)
  | station_origins (d : List StationEntry)
  | station_origin (d : StationEntry)
  | operators (d : List String)
  | sections_worked (d : List String)
  | countries_worked (d : List String)
  | section_hit (d : String)
  | country_hit (d : String)
  | path (d : PathPayload)
  deriving DecidableEq

/-- `_public_station_entry`: sources set rendered as a sorted list. -/
def public_station_entry (e : StationEntry) : StationEntry :=
  { e with sources := sortStr e.sources }

/-- Association-list lookup standing for `self.station_origins.get(canon)`. -/
def lookupEntry (l : List (String × StationEntry)) (k : String) : Option StationEntry :=
  (l.find? (fun p => p.1 = k)).map (fun p => p.2)

/-- Dict store `self.station_origins[canon] = entry` (replace in place,
append new keys; Python dicts preserve insertion order). -/
def setEntry (l : List (String × StationEntry)) (k : String) (e : StationEntry) :
    List (String × StationEntry) :=
  if (l.find? (fun p => p.1 = k)).isSome then
    l.map (fun p => if p.1 = k then (k, e) else p)
  else l ++ [(k, e)]

/-- `station_origin_entries()`: public entries sorted by uppercased name. -/
def station_origin_entries (s : HubState) : List StationEntry :=
  (s.station_origins.map (fun p => public_station_entry p.2)).insertionSort
    (fun x y => x.name.toUpper ≤ y.name.toUpper)

/-- `origin_payload()`. -/
def origin_payload (s : HubState) : OriginNamed :=
  ⟨s.origin.lat, s.origin.lon, s.origin.grid, s.primary_station_name⟩

/-- `compose_status()`. -/
def compose_status (cfg : Config) (s : HubState) : StatusSnap :=
  { sys := s.sys
    origin := s.origin
    primary_station_name := s.primary_station_name
    station_origins := station_origin_entries s
    operators := sortStr s.operators_seen
    sections_worked := sortStr s.sections_worked
    countries_worked := sortStr s.countries_worked
    metrics := s.metrics
    wfd_mode := cfg.wfd_mode
    prefer_section := cfg.prefer_section
    ttl_seconds := cfg.ttl_seconds }

/-- `Hub.connect(ws)`: the ordered list of payloads pushed to a new
subscriber (the websocket accept and client-set bookkeeping are the
external boundary). -/
def connect (cfg : Config) (s : HubState) : List Msg :=
  [Msg.status (compose_status cfg s)]
  ++ (if s.origin.lat ≠ none then [Msg.origin (origin_payload s)] else [])
  ++ (if s.station_origins ≠ [] then [Msg.station_origins (station_origin_entries s)] else [])
  ++ (if s.operators_seen ≠ [] then [Msg.operators (sortStr s.operators_seen)] else [])
  ++ (if s.sections_worked ≠ [] then [Msg.sections_worked (sortStr s.sections_worked)] else [])
  ++ (if s.countries_worked ≠ [] then [Msg.countries_worked (sortStr s.countries_worked)] else [])

/-- Python truthiness of an optional string (`None` and `""` are falsy). -/
def truthyS (s : Option String) : Bool := s ≠ none ∧ s ≠ some ""

/-- `a or b` on optional strings (Python `or` keeps `a` when truthy). -/
def pyOrS (a b : Option String) : Option String := if truthyS a then a else b

/-- The location dict handed to `_safe_station_origin` (spread into
`{"name": name, **location}`; no call site carries its own name key). -/
structure LocDict where
  lat : Option ℚ := none
  lon : Option ℚ := none
  grid : Option String := none
  maidenhead : Option String := none
  deriving DecidableEq

/-- The validated payload `_safe_station_origin` returns.  `name` is the
(truthy) station name merged into the dict by both callers. -/
structure SafeOrigin where
  lat : ℚ
  lon : ℚ
  grid : Option String
  name : String
  deriving DecidableEq

/-- `_safe_station_origin(data)`: `none` without numeric lat/lon; the grid
is the uppercased given grid, else derived from the coordinates (`none`
when that derivation raises). -/
def safe_station_origin (name : String) (d : LocDict) : Option SafeOrigin :=
  match d.lat, d.lon with
  | some lat, some lon =>
      let g := pyOrS d.grid d.maidenhead
      some { lat := lat, lon := lon,
             grid := if truthyS g then (g.getD "").toUpper else maidenhead_from_latlon lat lon,
             name := name }
  | _, _ => none

/-- The lat/lon/grid/name merge loop of `set_station_origin`, returning
the merged entry and whether any field changed. -/
def ssoMerge (e0 : StationEntry) (safe : SafeOrigin) : StationEntry × Bool :=
  let r1 :=
    if e0.lat ≠ some safe.lat then ({ e0 with lat := some safe.lat }, true) else (e0, false)
  let e1 := r1.1
  let r2 :=
    if e1.lon ≠ some safe.lon then ({ e1 with lon := some safe.lon }, true) else (e1, false)
  let e2 := r2.1
  let r3 :=
    if safe.grid ≠ none ∧ e2.grid ≠ safe.grid then
      ({ e2 with grid := safe.grid }, true) else (e2, false)
  let e3 := r3.1
  let r4 :=
    if e3.name ≠ safe.name then ({ e3 with name := safe.name }, true) else (e3, false)
  (r4.1, r1.2 ∨ r2.2 ∨ r3.2 ∨ r4.2)

/-- `Hub.set_station_origin(name, origin)`.  Returns the new state and the
broadcasts, in order (mirrored origin first when the named station is the
primary one, then the station entry, then a status snapshot). -/
def set_station_origin (cfg : Config) (s : HubState)
    (name : Option String) (origin : Option LocDict) : HubState × List Msg :=
  if ¬truthyS name ∨ origin = none then (s, [])
  else
    match safe_station_origin (name.getD "") (origin.getD {}) with
    | none => (s, [])
    | some safe =>
      match canonical_station_key name with
      | none => (s, [])
      | some canon =>
        let found := lookupEntry s.station_origins canon
        let mr := ssoMerge (found.getD { name := safe.name }) safe
        if ¬(found = none ∨ mr.2) then (s, [])
        else
          let s := { s with station_origins := setEntry s.station_origins canon mr.1 }
          if canonical_station_key (some s.primary_station_name) = some canon then
            let s := { s with origin := ⟨mr.1.lat, mr.1.lon, mr.1.grid⟩ }
            (s, [Msg.origin (origin_payload s),
                 Msg.station_origin (public_station_entry mr.1),
                 Msg.status (compose_status cfg s)])
          else
            (s, [Msg.station_origin (public_station_entry mr.1),
                 Msg.status (compose_status cfg s)])

/-- The metadata dict read by `update_station_presence` (the keys of its
merge loop). -/
structure MetaP where
  call : Option String := none
  operator : Option String := none
  band : Option String := none
  mode : Option String := none
  status : Option String := none
  «section» : Option String := none
  country : Option String := none
  message : Option String := none
  deriving DecidableEq

/-- One step of the presence merge: adopt a present value that differs
from the stored one, reporting whether anything changed. -/
def mergeField [DecidableEq α] (old new : Option α) : Option α × Bool :=
  match new with
  | none => (old, false)
  | some v => if old = some v then (old, false) else (some v, true)

/-- The merge loops of `update_station_presence`: fold the optional
location payload, the metadata dict, and the source label into a stored
entry, reporting whether anything changed. -/
def presenceMerge (e0 : StationEntry) (lp : Option SafeOrigin)
    (meta : Option MetaP) (source : Option String) : StationEntry × Bool :=
  let locR : StationEntry × Bool :=
    match lp with
    | none => (e0, false)
    | some p =>
      ({ e0 with lat := (mergeField e0.lat (some p.lat)).1,
                 lon := (mergeField e0.lon (some p.lon)).1,
                 grid := (mergeField e0.grid p.grid).1 },
       (mergeField e0.lat (some p.lat)).2 ∨ (mergeField e0.lon (some p.lon)).2 ∨
         (mergeField e0.grid p.grid).2)
  let e1 := locR.1
  let metaR : StationEntry × Bool :=
    match meta with
    | none => (e1, false)
    | some m =>
      ({ e1 with call := (mergeField e1.call m.call).1,
                 operator := (mergeField e1.operator m.operator).1,
                 band := (mergeField e1.band m.band).1,
                 mode := (mergeField e1.mode m.mode).1,
                 status := (mergeField e1.status m.status).1,
                 «section» := (mergeField e1.«section» m.«section»).1,
                 country := (mergeField e1.country m.country).1,
                 message := (mergeField e1.message m.message).1 },
       (mergeField e1.call m.call).2 ∨ (mergeField e1.operator m.operator).2 ∨
         (mergeField e1.band m.band).2 ∨ (mergeField e1.mode m.mode).2 ∨
         (mergeField e1.status m.status).2 ∨ (mergeField e1.«section» m.«section»).2 ∨
         (mergeField e1.country m.country).2 ∨ (mergeField e1.message m.message).2)
  let e2 := metaR.1
  let srcR : StationEntry × Bool :=
    if truthyS source then
      let src := source.getD ""
      ({ e2 with
          sources := if src ∈ e2.sources then e2.sources else e2.sources ++ [src],
          last_source := (mergeField e2.last_source (some src)).1 },
       (if src ∈ e2.sources then false else true) ∨
         (mergeField e2.last_source (some src)).2)
    else (e2, false)
  (srcR.1, locR.2 ∨ metaR.2 ∨ srcR.2)

/-- `Hub.update_station_presence(name, meta, location, source=...,
force_broadcast=...)`.  Returns the new state and the broadcasts (the
`station_origin`/`status` pair when something changed or the flag forces
it, nothing otherwise). -/
def update_station_presence (cfg : Config) (s : HubState) (name : Option String)
    (meta : Option MetaP) (location : Option LocDict) (source : Option String)
    (force_broadcast : Bool) (now : ℚ) : HubState × List Msg :=
  if ¬truthyS name then (s, [])
  else
    let nm := name.getD ""
    match canonical_station_key name with
    | none => (s, [])
    | some canon =>
      let e0 : StationEntry := (lookupEntry s.station_origins canon).getD { name := nm }
      let e0 := { e0 with name := nm }
      let loc_payload := location.bind (fun l => safe_station_origin nm l)
      let mr := presenceMerge e0 loc_payload meta source
      let e4 := { mr.1 with last_seen := some now }
      let s := { s with station_origins := setEntry s.station_origins canon e4 }
      if mr.2 ∨ force_broadcast then
        (s, [Msg.station_origin (public_station_entry e4),
             Msg.status (compose_status cfg s)])
      else (s, [])

/-- `safe_meta`: drop `None` and `""` values from the metadata dict. -/
def normField (v : Option String) : Option String :=
  match v with
  | none => none
  | some s => if s = "" then none else some s

/-- `{k: v for k, v in (meta or {}).items() if v not in (None, "")}`. -/
def safeMeta (m : MetaIn) : MetaIn :=
  { call := normField m.call, band := normField m.band, mode := normField m.mode,
    «section» := normField m.«section», operator := normField m.operator,
    country := normField m.country, station := normField m.station }

/-- The first-worked-section block of `emit_path`: add a newly seen
section code and broadcast the notice plus the updated (sorted) set. -/
def applySection (s : HubState) (sec : Option String) : HubState × List Msg :=
  match sec with
  | none => (s, [])
  | some sec =>
    if sec ∈ s.sections_worked then (s, [])
    else
      let s := { s with sections_worked := s.sections_worked ++ [sec] }
      let s := { s with metrics := { s.metrics with
                  sections_worked_total := s.sections_worked.length } }
      (s, [Msg.section_hit sec, Msg.sections_worked (sortStr s.sections_worked)])

/-- The first-worked-country block of `emit_path`: resolve the country
key, add it when new, broadcast the notice plus the updated set. -/
def applyCountry (cfg : Config) (s : HubState) (country : Option String) :
    HubState × List Msg :=
  match country with
  | none => (s, [])
  | some c =>
    match cfg.resolve_country c with
    | none => (s, [])
    | some k =>
      if k ∈ s.countries_worked then (s, [])
      else
        let s := { s with countries_worked := s.countries_worked ++ [k] }
        let s := { s with metrics := { s.metrics with
                    countries_worked_total := s.countries_worked.length } }
        (s, [Msg.country_hit k, Msg.countries_worked (sortStr s.countries_worked)])

/-- `Hub.emit_path(dest, meta, ttl=None, origin_override=None)`.  Returns
the new state and the broadcasts, in order: the path, a status snapshot,
then any first-worked section/country notices with their updated sets. -/
def emit_path (cfg : Config) (s : HubState) (dest : Option DestR)
    (meta : Option MetaIn) (ttl : Option ℕ) (origin_override : Option OriginR)
    (now : ℚ) : HubState × List Msg :=
  match dest with
  | none => (s, [])
  | some d =>
    let origin := origin_override.getD s.origin
    if origin.lat = none ∨ origin.lon = none then (s, [])
    else if d.lat = none ∨ d.lon = none then (s, [])
    else
      let sm := safeMeta (meta.getD {})
      let ttl_val := match ttl with
        | none => cfg.ttl_seconds
        | some 0 => cfg.ttl_seconds
        | some t => t
      let sd := should_draw cfg s.recent_draw sm.call sm.band sm.mode now
      let s := { s with recent_draw := sd.2 }
      if ¬sd.1 then (s, [])
      else
        let toRec : DestR :=
          if d.grid = none then
            { d with grid := maidenhead_from_latlon (d.lat.getD 0) (d.lon.getD 0) }
          else d
        let path_id := s.next_path_id
        let s := { s with next_path_id := path_id + 1 }
        let payload : PathPayload :=
          { id := path_id, «from» := origin, «to» := toRec, meta := sm,
            ttl := ttl_val, timestamp := now }
        let s := { s with sys := { s.sys with last_event_ts := some now },
                          metrics := { s.metrics with
                            paths_drawn_total := s.metrics.paths_drawn_total + 1 } }
        let msgs := [Msg.path payload, Msg.status (compose_status cfg s)]
        let secR := applySection s sm.«section»
        let s := secR.1
        let ctryR := applyCountry cfg s sm.country
        let s := ctryR.1
        let msgs := msgs ++ secR.2 ++ ctryR.2
        let rec_entry : PathRecord :=
          { id := path_id, timestamp := now, meta := sm,
            «from» := origin, «to» := toRec }
        let s := { s with recent_paths := dequeAppend 150 s.recent_paths rec_entry }
        (s, msgs)

/-! ## The API read loop's resolved-submission step (`n3fjp_api_client`)

Only the branch this development reasons about is embedded: a
contact-submission (`ENTEREVENT`) frame whose destination already
resolved (`if dest:` at the end of the handler).  `last_emit` is the
loop-local variable of the same name. -/

/-- Per-connection loop state: the hub plus the loop's `last_emit`. -/
structure LoopState where
  last_emit : ℚ
  hub : HubState
  deriving DecidableEq

/-- `hub.pending_meta.pop(call_key, None)`. -/
def popPending (l : List (String × PendingEntry)) (k : String) :
    List (String × PendingEntry) :=
  l.filter (fun p => p.1 ≠ k)

/-- The resolved-destination tail of the `ENTEREVENT` handler:
pop any pending lookup for the call, then emit the path only when more
than 0.01 time-units have passed since the loop's last emission. -/
def handle_resolved_dest (cfg : Config) (ls : LoopState) (call_key : String)
    (dest : DestR) (base_meta : MetaIn) (origin_snapshot : Option OriginR)
    (now : ℚ) : LoopState × List Msg :=
  let hub := { ls.hub with pending_meta := popPending ls.hub.pending_meta call_key }
  if now - ls.last_emit > 1/100 then
    let r := emit_path cfg hub (some dest) (some base_meta)
      (some cfg.ttl_seconds) origin_snapshot now
    ({ last_emit := now, hub := r.1 }, r.2)
  else
    ({ ls with hub := hub }, [])

/-- The arguments of one `emit_path` call. -/
structure EmitCall where
  dest : Option DestR
  meta : Option MetaIn
  ttl : Option ℕ
  origin_override : Option OriginR
  now : ℚ

/-- A sequence of `emit_path` calls, collecting every broadcast. -/
def runEmits (cfg : Config) (s : HubState) : List EmitCall → HubState × List Msg
  | [] => (s, [])
  | c :: cs =>
      let r1 := emit_path cfg s c.dest c.meta c.ttl c.origin_override c.now
      let r2 := runEmits cfg r1.1 cs
      (r2.1, r1.2 ++ r2.2)

/-! ## Claims -/

/-- C8: a wire longitude string that parses as a number on a west-positive
field resolves to the negated coordinate longitude; in particular `"72.7"`
resolves to `-72.7`. -/
theorem C8_parse_lon_west_positive_negates :
    (∀ (s : String) (q : ℚ), pyFloat s = some q →
      parse_lon_west_positive (some s) = some (-q)) ∧
    parse_lon_west_positive (some "72.7") = some (-(727/10)) := by
  constructor
  · intro s q h
    have hs : s ≠ "" := by
      intro he
      rw [he] at h
      simp [pyFloat, pyStrip] at h
    simp [parse_lon_west_positive, hs, h]
  · have h : pyFloat "72.7" = some (mkRat 727 10) := by decide
    have h2 : (mkRat 727 10 : ℚ) = 727/10 := by
      rw [Rat.mkRat_eq_div]; norm_num
    simp [parse_lon_west_positive, h, h2]

/-- Witness for C8 at the wire value `"72.7"`. -/
theorem C8_witness :
    parse_lon_west_positive (some "72.7") = some (-(mkRat 727 10)) :=
  C8_parse_lon_west_positive_negates.1 "72.7" (mkRat 727 10) (by decide)

/-- C3: an `emit_path` call whose destination or effective origin lacks a
numeric lat or lon publishes nothing and leaves the whole Hub state
unchanged. -/
theorem C3_emit_path_partial_noop (cfg : Config) (s : HubState)
    (dest : Option DestR) (meta : Option MetaIn) (ttl : Option ℕ)
    (origin_override : Option OriginR) (now : ℚ)
    (h : (match dest with
          | none => True
          | some d => d.lat = none ∨ d.lon = none) ∨
         (origin_override.getD s.origin).lat = none ∨
         (origin_override.getD s.origin).lon = none) :
    emit_path cfg s dest meta ttl origin_override now = (s, []) := by
  match dest with
  | none => rfl
  | some d =>
    simp only [emit_path]
    rcases h with hd | ho
    · have hd' : d.lat = none ∨ d.lon = none := hd
      by_cases hoc : (origin_override.getD s.origin).lat = none ∨
          (origin_override.getD s.origin).lon = none
      · rw [if_pos hoc]
      · rw [if_neg hoc, if_pos hd']
    · rw [if_pos ho]

/-- Witness for C3: destination with coordinates but no configured origin. -/
theorem C3_witness :
    emit_path {} {} (some ⟨some 1, some 2, none⟩) none none none 0 = ({}, []) :=
  C3_emit_path_partial_noop {} {} (some ⟨some 1, some 2, none⟩) none none none 0
    (Or.inr (Or.inl rfl))

lemma toUpper_empty : "".toUpper = "" := by with_unfolding_all decide

/-- C10: with an empty band (resp. mode) on the event, the corresponding
allow-list is not applied at all — `should_draw` behaves exactly as with
that filter unset, proceeding to the dedup gate. -/
theorem C10_empty_band_mode_skip_filters (cfg : Config) (rd : List DrawEntry)
    (call band mode : Option String) (now : ℚ) :
    ((band = none ∨ band = some "") →
      should_draw cfg rd call band mode now =
        should_draw { cfg with band_filter := [] } rd call band mode now) ∧
    ((mode = none ∨ mode = some "") →
      should_draw cfg rd call band mode now =
        should_draw { cfg with mode_filter := [] } rd call band mode now) := by
  constructor
  · intro hb
    have hkey : (drawKey call band mode).2.1 = "" := by
      rcases hb with rfl | rfl <;> rfl
    simp [should_draw, hkey]
  · intro hm
    have hkey : (drawKey call band mode).2.2 = "" := by
      rcases hm with rfl | rfl <;> simp [drawKey, toUpper_empty]
    simp [should_draw, hkey]

/-- Witness for C10: an event with empty band and mode passes non-trivial
filters into the dedup gate. -/
theorem C10_witness :
    should_draw { band_filter := ["20"], mode_filter := ["CW"] } []
        (some "W1AW") none (some "") 0 =
      should_draw { band_filter := [], mode_filter := ["CW"] } []
        (some "W1AW") none (some "") 0 :=
  (C10_empty_band_mode_skip_filters
    { band_filter := ["20"], mode_filter := ["CW"] } [] (some "W1AW") none (some "") 0).1
    (Or.inl rfl)

/-- The event's band and mode clear the configured allow-lists (an empty
list, an empty field, or listed membership). -/
def passes_filters (cfg : Config) (band mode : Option String) : Prop :=
  (cfg.band_filter = [] ∨ band.getD "" = "" ∨ band.getD "" ∈ cfg.band_filter) ∧
  (cfg.mode_filter = [] ∨ (mode.getD "").toUpper = "" ∨
    (mode.getD "").toUpper ∈ cfg.mode_filter)

lemma mem_dropWhile_of_not {p : α → Bool} {l : List α} {e : α}
    (he : e ∈ l) (hp : ¬p e) : e ∈ l.dropWhile p := by
  induction l with
  | nil => cases he
  | cons h t ih =>
    by_cases hh : p h
    · rw [List.dropWhile_cons_of_pos hh]
      rcases List.mem_cons.mp he with rfl | ht
      · exact absurd hh hp
      · exact ih ht
    · rw [List.dropWhile_cons_of_neg hh]
      exact he

lemma purge_bound {l : List DrawEntry} {now : ℚ}
    (hs : l.Pairwise (fun a b => a.ts ≤ b.ts)) :
    ∀ e ∈ l.dropWhile (fun e => now - e.ts > 3), now - e.ts ≤ 3 := by
  induction l with
  | nil => intro e he; cases he
  | cons h t ih =>
    rcases List.pairwise_cons.mp hs with ⟨hh, ht⟩
    by_cases hp : now - h.ts > 3
    · rw [List.dropWhile_cons_of_pos (by simpa using hp)]
      exact ih ht
    · rw [List.dropWhile_cons_of_neg (by simpa using hp)]
      intro e he
      rcases List.mem_cons.mp he with rfl | hm
      · exact not_lt.mp hp
      · have h1 : h.ts ≤ e.ts := hh e hm
        have h2 : now - h.ts ≤ 3 := not_lt.mp hp
        linarith

lemma mem_dequeAppend {m : ℕ} {l : List α} {x e : α}
    (he : e ∈ dequeAppend m l x) : e ∈ l ∨ e = x := by
  unfold dequeAppend at he
  split at he
  · rcases List.mem_append.mp he with h | h
    · exact Or.inl h
    · exact Or.inr (List.mem_singleton.mp h)
  · rcases List.mem_append.mp he with h | h
    · exact Or.inl (List.drop_subset _ _ h)
    · exact Or.inr (List.mem_singleton.mp h)

lemma self_mem_dequeAppend (m : ℕ) (l : List α) (x : α) :
    x ∈ dequeAppend m l x := by
  unfold dequeAppend
  split <;> exact List.mem_append.mpr (Or.inr (List.mem_singleton.mpr rfl))

lemma pairwise_dequeAppend {m : ℕ} {l : List DrawEntry} {x : DrawEntry}
    (hs : l.Pairwise (fun a b => a.ts ≤ b.ts)) (hx : ∀ e ∈ l, e.ts ≤ x.ts) :
    (dequeAppend m l x).Pairwise (fun a b => a.ts ≤ b.ts) := by
  unfold dequeAppend
  split
  · refine List.pairwise_append.mpr ⟨hs, List.pairwise_singleton _ _, ?_⟩
    intro a ha b hb
    rw [List.mem_singleton.mp hb]
    exact hx a ha
  · refine List.pairwise_append.mpr ⟨hs.sublist (List.drop_sublist _ _),
      List.pairwise_singleton _ _, ?_⟩
    intro a ha b hb
    rw [List.mem_singleton.mp hb]
    exact hx a (List.drop_subset _ _ ha)

lemma pairwise_dropWhile {p : DrawEntry → Bool} {l : List DrawEntry}
    (hs : l.Pairwise (fun a b => a.ts ≤ b.ts)) :
    (l.dropWhile p).Pairwise (fun a b => a.ts ≤ b.ts) :=
  hs.sublist (List.dropWhile_sublist _)

/-- When the allow-lists pass, `should_draw` is the pure purge/test/record
gate. -/
lemma should_draw_of_pass (cfg : Config) (rd : List DrawEntry)
    (call band mode : Option String) (now : ℚ)
    (hpass : passes_filters cfg band mode) :
    should_draw cfg rd call band mode now =
      (if (rd.dropWhile (fun e => now - e.ts > 3)).any
            (fun e => (e.call, e.band, e.mode) = drawKey call band mode ∧ now - e.ts < 2) then
        (false, rd.dropWhile (fun e => now - e.ts > 3))
      else
        (true, dequeAppend 128 (rd.dropWhile (fun e => now - e.ts > 3))
          ⟨(drawKey call band mode).1, (drawKey call band mode).2.1,
           (drawKey call band mode).2.2, now⟩)) := by
  obtain ⟨hb, hm⟩ := hpass
  simp only [should_draw]
  rw [if_neg, if_neg]
  · intro ⟨h1, h2, h3⟩
    rcases hm with h | h | h
    · exact h1 h
    · exact h2 h
    · exact h3 h
  · intro ⟨h1, h2, h3⟩
    rcases hb with h | h | h
    · exact h1 h
    · exact h2 h
    · exact h3 h

/-- C1: a triple that clears the allow-lists is accepted on first sight,
rejected when repeated within 2 time-units, accepted again once 2
time-units have elapsed since the accepted call, and every `should_draw`
call leaves no window entry older than 3 time-units. -/
theorem C1_dedup_window (cfg : Config) (rd0 : List DrawEntry)
    (call band mode : Option String) (t1 t2 t3 : ℚ)
    (hpass : passes_filters cfg band mode)
    (hsort : rd0.Pairwise (fun a b => a.ts ≤ b.ts))
    (hpast : ∀ e ∈ rd0, e.ts ≤ t1)
    (hnone : ∀ e ∈ rd0, (e.call, e.band, e.mode) ≠ drawKey call band mode)
    (h12 : t1 ≤ t2) (hwin : t2 - t1 < 2) (h23 : t2 ≤ t3) (hrep : 2 ≤ t3 - t1) :
    (should_draw cfg rd0 call band mode t1).1 = true ∧
    (should_draw cfg (should_draw cfg rd0 call band mode t1).2
        call band mode t2).1 = false ∧
    (should_draw cfg (should_draw cfg (should_draw cfg rd0 call band mode t1).2
        call band mode t2).2 call band mode t3).1 = true ∧
    (∀ e ∈ (should_draw cfg rd0 call band mode t1).2, t1 - e.ts ≤ 3) ∧
    (∀ e ∈ (should_draw cfg (should_draw cfg rd0 call band mode t1).2
        call band mode t2).2, t2 - e.ts ≤ 3) := by
  have key_eta : ((drawKey call band mode).1, (drawKey call band mode).2.1,
      (drawKey call band mode).2.2) = drawKey call band mode := rfl
  -- first call
  set rd1 := rd0.dropWhile (fun e => t1 - e.ts > 3) with hrd1
  have hsub1 : ∀ e ∈ rd1, e ∈ rd0 := fun e he => (List.dropWhile_sublist _).subset he
  have hany1 : (rd1.any (fun e => (e.call, e.band, e.mode) = drawKey call band mode ∧
      t1 - e.ts < 2)) = false := by
    rw [List.any_eq_false]
    intro e he
    simp only [decide_eq_true_eq, not_and]
    intro hk
    exact absurd hk (hnone e (hsub1 e he))
  have h1 : should_draw cfg rd0 call band mode t1 =
      (true, dequeAppend 128 rd1
        ⟨(drawKey call band mode).1, (drawKey call band mode).2.1,
         (drawKey call band mode).2.2, t1⟩) := by
    rw [should_draw_of_pass cfg rd0 call band mode t1 hpass, ← hrd1, if_neg]
    rw [hany1]
    exact Bool.false_ne_true
  set e1 : DrawEntry := ⟨(drawKey call band mode).1, (drawKey call band mode).2.1,
      (drawKey call band mode).2.2, t1⟩ with he1def
  have he1key : (e1.call, e1.band, e1.mode) = drawKey call band mode := key_eta
  have hsort1 : rd1.Pairwise (fun a b => a.ts ≤ b.ts) := pairwise_dropWhile hsort
  have hpast1 : ∀ e ∈ rd1, e.ts ≤ t1 := fun e he => hpast e (hsub1 e he)
  -- the window after the first call
  have hq1 : (should_draw cfg rd0 call band mode t1).2 = dequeAppend 128 rd1 e1 := by
    rw [h1]
  have hsortQ : (dequeAppend 128 rd1 e1).Pairwise (fun a b => a.ts ≤ b.ts) :=
    pairwise_dequeAppend hsort1 hpast1
  have hmemQ : ∀ e ∈ dequeAppend 128 rd1 e1, e ∈ rd0 ∨ e = e1 := by
    intro e he
    rcases mem_dequeAppend he with h | h
    · exact Or.inl (hsub1 e h)
    · exact Or.inr h
  have hpastQ : ∀ e ∈ dequeAppend 128 rd1 e1, e.ts ≤ t2 := by
    intro e he
    rcases hmemQ e he with h | rfl
    · exact le_trans (hpast e h) h12
    · exact h12
  -- second call
  set rd2 := (dequeAppend 128 rd1 e1).dropWhile (fun e => t2 - e.ts > 3) with hrd2
  have he1in2 : e1 ∈ rd2 := by
    apply mem_dropWhile_of_not (self_mem_dequeAppend 128 rd1 e1)
    simp only [decide_eq_true_eq, not_lt]
    show t2 - e1.ts ≤ 3
    have : e1.ts = t1 := rfl
    rw [this]
    linarith
  have hany2 : (rd2.any (fun e => (e.call, e.band, e.mode) = drawKey call band mode ∧
      t2 - e.ts < 2)) = true := by
    rw [List.any_eq_true]
    refine ⟨e1, he1in2, ?_⟩
    simp only [decide_eq_true_eq]
    constructor
    · simp [he1key]
    · show t2 - e1.ts < 2
      have : e1.ts = t1 := rfl
      rw [this]
      linarith
  have h2 : should_draw cfg (dequeAppend 128 rd1 e1) call band mode t2 = (false, rd2) := by
    rw [should_draw_of_pass cfg _ call band mode t2 hpass, ← hrd2, if_pos]
    rw [hany2]
  -- third call
  have hsub2 : ∀ e ∈ rd2, e ∈ dequeAppend 128 rd1 e1 :=
    fun e he => (List.dropWhile_sublist _).subset he
  have hany3 : ((rd2.dropWhile (fun e => t3 - e.ts > 3)).any
      (fun e => (e.call, e.band, e.mode) = drawKey call band mode ∧ t3 - e.ts < 2)) = false := by
    rw [List.any_eq_false]
    intro e he
    simp only [decide_eq_true_eq, not_and]
    intro hk
    have he' : e ∈ dequeAppend 128 rd1 e1 :=
      hsub2 e ((List.dropWhile_sublist _).subset he)
    rcases hmemQ e he' with h | rfl
    · exact absurd hk (hnone e h)
    · have : e1.ts = t1 := rfl
      rw [this]
      linarith
  have h3 : (should_draw cfg rd2 call band mode t3).1 = true := by
    rw [should_draw_of_pass cfg rd2 call band mode t3 hpass, if_neg]
    rw [hany3]
    exact Bool.false_ne_true
  refine ⟨by rw [h1], ?_, ?_, ?_, ?_⟩
  · rw [hq1, h2]
  · rw [hq1, h2]
    exact h3
  · rw [hq1]
    intro e he
    rcases hmemQ e he with h | rfl
    · rcases mem_dequeAppend he with hmem | hx
      · exact purge_bound hsort e hmem
      · rw [hx]
        show t1 - e1.ts ≤ 3
        have : e1.ts = t1 := rfl
        rw [this]
        linarith
    · show t1 - e1.ts ≤ 3
      have : e1.ts = t1 := rfl
      rw [this]
      linarith
  · rw [hq1, h2]
    intro e he
    exact purge_bound hsortQ e he

/-- Witness for C1: fresh window, triple `(W1AW, 20, CW)`, calls at times
0, 1 and 2. -/
theorem C1_witness :
    (should_draw {} [] (some "W1AW") (some "20") (some "CW") 0).1 = true ∧
    (should_draw {} (should_draw {} [] (some "W1AW") (some "20") (some "CW") 0).2
        (some "W1AW") (some "20") (some "CW") 1).1 = false ∧
    (should_draw {} (should_draw {} (should_draw {} [] (some "W1AW") (some "20")
        (some "CW") 0).2 (some "W1AW") (some "20") (some "CW") 1).2
        (some "W1AW") (some "20") (some "CW") 2).1 = true ∧
    (∀ e ∈ (should_draw {} [] (some "W1AW") (some "20") (some "CW") 0).2,
      (0 : ℚ) - e.ts ≤ 3) ∧
    (∀ e ∈ (should_draw {} (should_draw {} [] (some "W1AW") (some "20")
        (some "CW") 0).2 (some "W1AW") (some "20") (some "CW") 1).2,
      (1 : ℚ) - e.ts ≤ 3) :=
  C1_dedup_window {} [] (some "W1AW") (some "20") (some "CW") 0 1 2
    ⟨Or.inl rfl, Or.inl rfl⟩ List.Pairwise.nil (by simp) (by simp)
    (by with_unfolding_all decide) (by with_unfolding_all decide)
    (by with_unfolding_all decide) (by with_unfolding_all decide)

lemma applySection_mono {s : HubState} {sec : Option String} {k : String}
    (h : k ∈ s.sections_worked) : k ∈ (applySection s sec).1.sections_worked := by
  unfold applySection
  match sec with
  | none => exact h
  | some v =>
    dsimp only
    split
    · exact h
    · exact List.mem_append_left _ h

lemma applySection_countries {s : HubState} {sec : Option String} :
    (applySection s sec).1.countries_worked = s.countries_worked := by
  unfold applySection
  match sec with
  | none => rfl
  | some v =>
    dsimp only
    split <;> rfl

lemma applySection_hit_count {s : HubState} {sec : Option String} {k : String} :
    (applySection s sec).2.count (Msg.section_hit k) ≤ 1 := by
  unfold applySection
  match sec with
  | none => simp
  | some v =>
    dsimp only
    split
    · simp
    · by_cases hv : Msg.section_hit k = Msg.section_hit v <;>
        simp [List.count_cons, hv]

lemma applySection_hit_count_zero {s : HubState} {sec : Option String} {k : String}
    (h : k ∈ s.sections_worked) :
    (applySection s sec).2.count (Msg.section_hit k) = 0 := by
  unfold applySection
  match sec with
  | none => simp
  | some v =>
    dsimp only
    split
    · simp
    · have hvk : v ≠ k := by
        rintro rfl
        simp_all
      simp [List.count_cons, hvk]

lemma applySection_hit_mem {s : HubState} {sec : Option String} {k : String}
    (h : Msg.section_hit k ∈ (applySection s sec).2) :
    k ∈ (applySection s sec).1.sections_worked := by
  unfold applySection at h ⊢
  match sec with
  | none => cases h
  | some v =>
    dsimp only at h ⊢
    by_cases hmem : v ∈ s.sections_worked
    · rw [if_pos hmem] at h
      cases h
    · rw [if_neg hmem] at h ⊢
      simp only [List.mem_cons, List.not_mem_nil, or_false] at h
      rcases h with h | h
      · obtain rfl : k = v := by injection h
        simp
      · exact absurd h (by simp)

lemma applySection_no_country_hit {s : HubState} {sec : Option String} {k : String} :
    (applySection s sec).2.count (Msg.country_hit k) = 0 := by
  unfold applySection
  match sec with
  | none => simp
  | some v =>
    dsimp only
    split <;> simp

lemma applyCountry_mono {cfg : Config} {s : HubState} {c : Option String} {k : String}
    (h : k ∈ s.countries_worked) : k ∈ (applyCountry cfg s c).1.countries_worked := by
  unfold applyCountry
  match c with
  | none => exact h
  | some v =>
    dsimp only
    match cfg.resolve_country v with
    | none => exact h
    | some w =>
      dsimp only
      split
      · exact h
      · exact List.mem_append_left _ h

lemma applyCountry_sections {cfg : Config} {s : HubState} {c : Option String} :
    (applyCountry cfg s c).1.sections_worked = s.sections_worked := by
  unfold applyCountry
  match c with
  | none => rfl
  | some v =>
    dsimp only
    match cfg.resolve_country v with
    | none => rfl
    | some w =>
      dsimp only
      split <;> rfl

lemma applyCountry_hit_count {cfg : Config} {s : HubState} {c : Option String} {k : String} :
    (applyCountry cfg s c).2.count (Msg.country_hit k) ≤ 1 := by
  unfold applyCountry
  match c with
  | none => simp
  | some v =>
    dsimp only
    match cfg.resolve_country v with
    | none => simp
    | some w =>
      dsimp only
      split
      · simp
      · by_cases hv : Msg.country_hit k = Msg.country_hit w <;>
          simp [List.count_cons, hv]

lemma applyCountry_hit_count_zero {cfg : Config} {s : HubState} {c : Option String}
    {k : String} (h : k ∈ s.countries_worked) :
    (applyCountry cfg s c).2.count (Msg.country_hit k) = 0 := by
  unfold applyCountry
  match c with
  | none => simp
  | some v =>
    dsimp only
    match cfg.resolve_country v with
    | none => simp
    | some w =>
      dsimp only
      split
      · simp
      · have hvk : w ≠ k := by
          rintro rfl
          simp_all
        simp [List.count_cons, hvk]

lemma applyCountry_hit_mem {cfg : Config} {s : HubState} {c : Option String} {k : String}
    (h : Msg.country_hit k ∈ (applyCountry cfg s c).2) :
    k ∈ (applyCountry cfg s c).1.countries_worked := by
  unfold applyCountry at h ⊢
  match c with
  | none => cases h
  | some v =>
    dsimp only at h ⊢
    cases hres : cfg.resolve_country v with
    | none =>
      rw [hres] at h
      dsimp only at h
      cases h
    | some w =>
      rw [hres] at h
      dsimp only at h ⊢
      by_cases hmem : w ∈ s.countries_worked
      · rw [if_pos hmem] at h
        cases h
      · rw [if_neg hmem] at h ⊢
        simp only [List.mem_cons, List.not_mem_nil, or_false] at h
        rcases h with h | h
        · obtain rfl : k = w := by injection h
          simp
        · exact absurd h (by simp)

lemma applyCountry_no_section_hit {cfg : Config} {s : HubState} {c : Option String}
    {k : String} : (applyCountry cfg s c).2.count (Msg.section_hit k) = 0 := by
  unfold applyCountry
  match c with
  | none => simp
  | some v =>
    dsimp only
    match cfg.resolve_country v with
    | none => simp
    | some w =>
      dsimp only
      split <;> simp

lemma worked_tail (cfg : Config) (s9 : HubState) (sec c : Option String) (k : String)
    (msgs0 : List Msg) (secs0 ctrys0 : List String)
    (hsec : s9.sections_worked = secs0) (hcty : s9.countries_worked = ctrys0)
    (h0s : msgs0.count (Msg.section_hit k) = 0)
    (h0c : msgs0.count (Msg.country_hit k) = 0) :
    (k ∈ secs0 →
      k ∈ (applyCountry cfg (applySection s9 sec).1 c).1.sections_worked) ∧
    (k ∈ ctrys0 →
      k ∈ (applyCountry cfg (applySection s9 sec).1 c).1.countries_worked) ∧
    ((msgs0 ++ (applySection s9 sec).2 ++ (applyCountry cfg (applySection s9 sec).1 c).2).count
        (Msg.section_hit k) ≤ 1) ∧
    (k ∈ secs0 →
      (msgs0 ++ (applySection s9 sec).2 ++ (applyCountry cfg (applySection s9 sec).1 c).2).count
        (Msg.section_hit k) = 0) ∧
    (Msg.section_hit k ∈
        msgs0 ++ (applySection s9 sec).2 ++ (applyCountry cfg (applySection s9 sec).1 c).2 →
      k ∈ (applyCountry cfg (applySection s9 sec).1 c).1.sections_worked) ∧
    ((msgs0 ++ (applySection s9 sec).2 ++ (applyCountry cfg (applySection s9 sec).1 c).2).count
        (Msg.country_hit k) ≤ 1) ∧
    (k ∈ ctrys0 →
      (msgs0 ++ (applySection s9 sec).2 ++ (applyCountry cfg (applySection s9 sec).1 c).2).count
        (Msg.country_hit k) = 0) ∧
    (Msg.country_hit k ∈
        msgs0 ++ (applySection s9 sec).2 ++ (applyCountry cfg (applySection s9 sec).1 c).2 →
      k ∈ (applyCountry cfg (applySection s9 sec).1 c).1.countries_worked) := by
  subst hsec
  subst hcty
  refine ⟨?_, ?_, ?_, ?_, ?_, ?_, ?_, ?_⟩
  · intro h
    rw [applyCountry_sections]
    exact applySection_mono h
  · intro h
    apply applyCountry_mono
    rw [applySection_countries]
    exact h
  · rw [List.count_append, List.count_append, h0s, applyCountry_no_section_hit]
    have := @applySection_hit_count s9 sec k
    omega
  · intro h
    rw [List.count_append, List.count_append, h0s, applyCountry_no_section_hit,
        applySection_hit_count_zero h]
  · intro h
    rcases List.mem_append.mp h with h | h
    · rcases List.mem_append.mp h with h | h
      · exact absurd h (List.count_eq_zero.mp h0s)
      · rw [applyCountry_sections]
        exact applySection_hit_mem h
    · exact absurd h (List.count_eq_zero.mp applyCountry_no_section_hit)
  · rw [List.count_append, List.count_append, h0c, applySection_no_country_hit]
    have := @applyCountry_hit_count cfg (applySection s9 sec).1 c k
    omega
  · intro h
    have h' : k ∈ (applySection s9 sec).1.countries_worked := by
      rw [applySection_countries]
      exact h
    rw [List.count_append, List.count_append, h0c, applySection_no_country_hit,
        applyCountry_hit_count_zero h']
  · intro h
    rcases List.mem_append.mp h with h | h
    · rcases List.mem_append.mp h with h | h
      · exact absurd h (List.count_eq_zero.mp h0c)
      · exact absurd h (List.count_eq_zero.mp applySection_no_country_hit)
    · exact applyCountry_hit_mem h

lemma emit_path_worked (cfg : Config) (s : HubState) (dest : Option DestR)
    (meta : Option MetaIn) (ttl : Option ℕ) (oo : Option OriginR) (now : ℚ)
    (k : String) :
    (k ∈ s.sections_worked →
      k ∈ (emit_path cfg s dest meta ttl oo now).1.sections_worked) ∧
    (k ∈ s.countries_worked →
      k ∈ (emit_path cfg s dest meta ttl oo now).1.countries_worked) ∧
    ((emit_path cfg s dest meta ttl oo now).2.count (Msg.section_hit k) ≤ 1) ∧
    (k ∈ s.sections_worked →
      (emit_path cfg s dest meta ttl oo now).2.count (Msg.section_hit k) = 0) ∧
    (Msg.section_hit k ∈ (emit_path cfg s dest meta ttl oo now).2 →
      k ∈ (emit_path cfg s dest meta ttl oo now).1.sections_worked) ∧
    ((emit_path cfg s dest meta ttl oo now).2.count (Msg.country_hit k) ≤ 1) ∧
    (k ∈ s.countries_worked →
      (emit_path cfg s dest meta ttl oo now).2.count (Msg.country_hit k) = 0) ∧
    (Msg.country_hit k ∈ (emit_path cfg s dest meta ttl oo now).2 →
      k ∈ (emit_path cfg s dest meta ttl oo now).1.countries_worked) := by
  unfold emit_path
  match dest with
  | none => simp
  | some d =>
    dsimp only
    split
    · simp
    · split
      · simp
      · split
        · simp
        · dsimp only
          refine worked_tail cfg _ _ _ k _ _ _ rfl rfl ?_ ?_ <;> simp

/-- C4: across any sequence of `emit_path` calls the worked-section and
worked-country sets only grow, and a first-worked notice for a given key
is broadcast at most once — never again once the key is present. -/
theorem C4_worked_sets_monotone (cfg : Config) (s : HubState)
    (calls : List EmitCall) (k : String) :
    (k ∈ s.sections_worked → k ∈ (runEmits cfg s calls).1.sections_worked) ∧
    (k ∈ s.countries_worked → k ∈ (runEmits cfg s calls).1.countries_worked) ∧
    ((runEmits cfg s calls).2.count (Msg.section_hit k) ≤ 1) ∧
    (k ∈ s.sections_worked → (runEmits cfg s calls).2.count (Msg.section_hit k) = 0) ∧
    ((runEmits cfg s calls).2.count (Msg.country_hit k) ≤ 1) ∧
    (k ∈ s.countries_worked → (runEmits cfg s calls).2.count (Msg.country_hit k) = 0) := by
  induction calls generalizing s with
  | nil => simp [runEmits]
  | cons c cs ih =>
    obtain ⟨e1, e2, e3, e4, e5, e6, e7, e8⟩ :=
      emit_path_worked cfg s c.dest c.meta c.ttl c.origin_override c.now k
    obtain ⟨i1, i2, i3, i4, i5, i6⟩ :=
      ih (emit_path cfg s c.dest c.meta c.ttl c.origin_override c.now).1
    simp only [runEmits, List.count_append]
    refine ⟨?_, ?_, ?_, ?_, ?_, ?_⟩
    · intro h
      exact i1 (e1 h)
    · intro h
      exact i2 (e2 h)
    · by_cases hc : (emit_path cfg s c.dest c.meta c.ttl c.origin_override c.now).2.count
          (Msg.section_hit k) = 0
      · rw [hc]
        simpa using i3
      · have hmem : Msg.section_hit k ∈
            (emit_path cfg s c.dest c.meta c.ttl c.origin_override c.now).2 :=
          List.count_pos_iff_mem.mp (Nat.pos_of_ne_zero hc)
        have := i4 (e5 hmem)
        omega
    · intro h
      rw [e4 h, i4 (e1 h)]
    · by_cases hc : (emit_path cfg s c.dest c.meta c.ttl c.origin_override c.now).2.count
          (Msg.country_hit k) = 0
      · rw [hc]
        simpa using i5
      · have hmem : Msg.country_hit k ∈
            (emit_path cfg s c.dest c.meta c.ttl c.origin_override c.now).2 :=
          List.count_pos_iff_mem.mp (Nat.pos_of_ne_zero hc)
        have := i6 (e8 hmem)
        omega
    · intro h
      rw [e7 h, i6 (e2 h)]

/-- Witness for C4: one call on a hub that already worked section `CT` and
country key `CANADA`. -/
theorem C4_witness :
    ("CT" ∈ (runEmits {} { sections_worked := ["CT"], countries_worked := ["CANADA"] }
      [⟨some ⟨some 1, some 2, none⟩,
        some { «section» := some "CT", country := some "CANADA" }, none,
        some ⟨some 3, some 4, none⟩, 0⟩]).1.sections_worked) ∧
    ((runEmits {} { sections_worked := ["CT"], countries_worked := ["CANADA"] }
      [⟨some ⟨some 1, some 2, none⟩,
        some { «section» := some "CT", country := some "CANADA" }, none,
        some ⟨some 3, some 4, none⟩, 0⟩]).2.count (Msg.section_hit "CT") = 0) ∧
    ("CANADA" ∈ (runEmits {} { sections_worked := ["CT"], countries_worked := ["CANADA"] }
      [⟨some ⟨some 1, some 2, none⟩,
        some { «section» := some "CT", country := some "CANADA" }, none,
        some ⟨some 3, some 4, none⟩, 0⟩]).1.countries_worked) ∧
    ((runEmits {} { sections_worked := ["CT"], countries_worked := ["CANADA"] }
      [⟨some ⟨some 1, some 2, none⟩,
        some { «section» := some "CT", country := some "CANADA" }, none,
        some ⟨some 3, some 4, none⟩, 0⟩]).2.count (Msg.country_hit "CANADA") = 0) :=
  ⟨(C4_worked_sets_monotone {} { sections_worked := ["CT"], countries_worked := ["CANADA"] }
      [⟨some ⟨some 1, some 2, none⟩,
        some { «section» := some "CT", country := some "CANADA" }, none,
        some ⟨some 3, some 4, none⟩, 0⟩] "CT").1 (by decide),
   (C4_worked_sets_monotone {} { sections_worked := ["CT"], countries_worked := ["CANADA"] }
      [⟨some ⟨some 1, some 2, none⟩,
        some { «section» := some "CT", country := some "CANADA" }, none,
        some ⟨some 3, some 4, none⟩, 0⟩] "CT").2.2.2.1 (by decide),
   (C4_worked_sets_monotone {} { sections_worked := ["CT"], countries_worked := ["CANADA"] }
      [⟨some ⟨some 1, some 2, none⟩,
        some { «section» := some "CT", country := some "CANADA" }, none,
        some ⟨some 3, some 4, none⟩, 0⟩] "CANADA").2.1 (by decide),
   (C4_worked_sets_monotone {} { sections_worked := ["CT"], countries_worked := ["CANADA"] }
      [⟨some ⟨some 1, some 2, none⟩,
        some { «section» := some "CT", country := some "CANADA" }, none,
        some ⟨some 3, some 4, none⟩, 0⟩] "CANADA").2.2.2.2.2 (by decide)⟩

lemma mergeField_fst_some [DecidableEq α] (o : Option α) (v : α) :
    (mergeField o (some v)).1 = some v := by
  simp only [mergeField]
  split
  · assumption
  · rfl

lemma mergeField_idem [DecidableEq α] (o n : Option α) :
    mergeField (mergeField o n).1 n = ((mergeField o n).1, false) := by
  cases n with
  | none => rfl
  | some v =>
    rw [mergeField_fst_some o v]
    simp [mergeField]

lemma mergeField_self [DecidableEq α] (v : α) :
    mergeField (some v) (some v) = (some v, false) := by
  simp [mergeField]

lemma presenceMerge_name (e : StationEntry) (lp : Option SafeOrigin)
    (m : Option MetaP) (src : Option String) :
    (presenceMerge e lp m src).1.name = e.name := by
  simp only [presenceMerge]
  cases lp <;> cases m <;> by_cases hs : truthyS src <;> simp [hs]

lemma presenceMerge_idem (e : StationEntry) (lp : Option SafeOrigin)
    (m : Option MetaP) (src : Option String) (t : Option ℚ) :
    presenceMerge { (presenceMerge e lp m src).1 with last_seen := t } lp m src =
      ({ (presenceMerge e lp m src).1 with last_seen := t }, false) := by
  cases lp <;> cases m <;> by_cases hs : truthyS src <;>
    simp only [presenceMerge, hs, if_true, if_false, Bool.or_self, Bool.or_false,
      Bool.false_or, mergeField_idem, mergeField_fst_some] <;>
    split <;>
    simp_all [mergeField_idem, mergeField_fst_some, mergeField_self, Prod.ext_iff]

lemma setEntry_cons_of_ne (p : String × StationEntry) (t : List (String × StationEntry))
    (k : String) (e : StationEntry) (hp : ¬p.1 = k) :
    setEntry (p :: t) k e = p :: setEntry t k e := by
  unfold setEntry
  by_cases hf : (t.find? (fun q => q.1 = k)).isSome
  · rw [if_pos, if_pos hf]
    · simp [hp]
    · simpa [List.find?_cons, hp] using hf
  · rw [if_neg, if_neg hf]
    · simp
    · simpa [List.find?_cons, hp] using hf

lemma lookup_setEntry (l : List (String × StationEntry)) (k : String) (e : StationEntry) :
    lookupEntry (setEntry l k e) k = some e := by
  induction l with
  | nil => simp [setEntry, lookupEntry, List.find?]
  | cons p t ih =>
    by_cases hp : p.1 = k
    · unfold setEntry
      rw [if_pos]
      · unfold lookupEntry
        simp [List.find?_cons, hp]
      · simp [List.find?_cons, hp]
    · rw [setEntry_cons_of_ne p t k e hp]
      unfold lookupEntry at ih ⊢
      simpa [List.find?_cons, hp] using ih

lemma upd_on_merged (cfg : Config) (s' : HubState) (nm : String)
    (meta : Option MetaP) (location : Option LocDict) (source : Option String)
    (now2 : ℚ) (canon : String) (e4 : StationEntry)
    (htr : truthyS (some nm))
    (hc : canonical_station_key (some nm) = some canon)
    (hlook : lookupEntry s'.station_origins canon = some e4)
    (hname : e4.name = nm)
    (hfix : presenceMerge e4
        (location.bind (fun l => safe_station_origin nm l)) meta source =
      (e4, false)) :
    (update_station_presence cfg s' (some nm) meta location source false now2).2 = [] := by
  simp only [update_station_presence, if_neg (not_not_intro htr), hc]
  rw [hlook]
  simp only [Option.getD_some]
  rw [show ({ e4 with name := nm } : StationEntry) = e4 by rw [← hname]]
  rw [hfix]
  simp

lemma upd_once_shape (cfg : Config) (s : HubState) (name : Option String)
    (meta : Option MetaP) (location : Option LocDict) (source : Option String)
    (now1 : ℚ) :
    (update_station_presence cfg s name meta location source false now1).2 = [] ∨
    ∃ e, (update_station_presence cfg s name meta location source false now1).2 =
      [Msg.station_origin e, Msg.status (compose_status cfg
        (update_station_presence cfg s name meta location source false now1).1)] := by
  by_cases htr : truthyS name
  · cases hc : canonical_station_key name with
    | none =>
      left
      simp only [update_station_presence, if_neg (not_not_intro htr), hc]
    | some canon =>
      simp only [update_station_presence, if_neg (not_not_intro htr), hc]
      split
      · right
        exact ⟨_, rfl⟩
      · left
        rfl
  · left
    rw [update_station_presence, if_pos htr]

/-- C5: an identical presence update applied twice broadcasts at most
once — the first call pushes the presence/status pair only when it
changed something, and the second, identical call broadcasts nothing. -/
theorem C5_presence_update_idempotent (cfg : Config) (s : HubState)
    (name : Option String) (meta : Option MetaP) (location : Option LocDict)
    (source : Option String) (now1 now2 : ℚ) :
    ((update_station_presence cfg s name meta location source false now1).2 = [] ∨
     ∃ e, (update_station_presence cfg s name meta location source false now1).2 =
       [Msg.station_origin e, Msg.status (compose_status cfg
         (update_station_presence cfg s name meta location source false now1).1)]) ∧
    (update_station_presence cfg
        (update_station_presence cfg s name meta location source false now1).1
        name meta location source false now2).2 = [] := by
  refine ⟨upd_once_shape cfg s name meta location source now1, ?_⟩
  by_cases htr : truthyS name
  · obtain ⟨nm, rfl⟩ : ∃ nm, name = some nm := by
      cases name with
      | none => simp [truthyS] at htr
      | some x => exact ⟨x, rfl⟩
    cases hc : canonical_station_key (some nm) with
    | none =>
      have hs1 : (update_station_presence cfg s (some nm) meta location source false now1).1
          = s := by
        simp only [update_station_presence, if_neg (not_not_intro htr), hc]
      rw [hs1]
      simp only [update_station_presence, if_neg (not_not_intro htr), hc]
    | some canon =>
      have hs1 : (update_station_presence cfg s (some nm) meta location source false now1).1 =
          { s with station_origins :=
              (setEntry s.station_origins canon
                { (presenceMerge
                    { (lookupEntry s.station_origins canon).getD { name := nm } with
                      name := nm }
                    (location.bind (fun l => safe_station_origin nm l))
                    meta source).1 with last_seen := some now1 }) } := by
        simp only [update_station_presence, if_neg (not_not_intro htr), hc]
        split <;> rfl
      rw [hs1]
      refine upd_on_merged cfg _ nm meta location source now2 canon
        ({ (presenceMerge
            { (lookupEntry s.station_origins canon).getD { name := nm } with
              name := nm }
            (location.bind (fun l => safe_station_origin nm l))
            meta source).1 with last_seen := some now1 }) htr hc ?_ ?_ ?_
      · exact lookup_setEntry _ _ _
      · show (presenceMerge _ _ _ _).1.name = _
        rw [presenceMerge_name]
      · exact presenceMerge_idem _ _ _ _ _
  · have hs1 : (update_station_presence cfg s name meta location source false now1).1 = s := by
      rw [update_station_presence, if_pos htr]
    rw [hs1]
    rw [update_station_presence, if_pos htr]

lemma upd_origin_unchanged (cfg : Config) (s : HubState) (name : Option String)
    (meta : Option MetaP) (location : Option LocDict) (source : Option String)
    (force : Bool) (now : ℚ) :
    (update_station_presence cfg s name meta location source force now).1.origin =
      s.origin := by
  by_cases htr : truthyS name
  · cases hc : canonical_station_key name with
    | none =>
      simp only [update_station_presence, if_neg (not_not_intro htr), hc]
    | some canon =>
      simp only [update_station_presence, if_neg (not_not_intro htr), hc]
      split <;> rfl
  · rw [update_station_presence, if_pos htr]

/-- C7 (amended): a location update through `update_station_presence`
never touches the global origin; `set_station_origin` mirrors the stored
entry's `{lat, lon, grid}` into the global origin (and broadcasts it)
whenever the named station canonicalizes to the primary station's key and
the update changed the stored entry. -/
lemma sso_changed (cfg : Config) (s : HubState) (name : Option String)
    (origin : Option LocDict) (canon : String) (safe : SafeOrigin)
    (hg : ¬(¬truthyS name ∨ origin = none))
    (hsafe : safe_station_origin (name.getD "") (origin.getD {}) = some safe)
    (hc : canonical_station_key name = some canon)
    (hprim : canonical_station_key (some s.primary_station_name) = some canon) :
    (set_station_origin cfg s name origin).2 = [] ∨
    ∃ e, lookupEntry (set_station_origin cfg s name origin).1.station_origins canon =
           some e ∧
         (set_station_origin cfg s name origin).1.origin = ⟨e.lat, e.lon, e.grid⟩ ∧
         Msg.origin (origin_payload (set_station_origin cfg s name origin).1) ∈
           (set_station_origin cfg s name origin).2 := by
  rw [set_station_origin, if_neg hg]
  dsimp only
  rw [hsafe, hc]
  dsimp only
  split
  · exact Or.inl rfl
  · exact Or.inr ⟨_, lookup_setEntry _ _ _, rfl, List.mem_cons.mpr (Or.inl rfl)⟩

/-- C7 (amended): a location update through `update_station_presence`
never touches the global origin; `set_station_origin` mirrors the stored
entry's `{lat, lon, grid}` into the global origin (and broadcasts it)
whenever the named station canonicalizes to the primary station's key and
the update changed the stored entry. -/
theorem C7_primary_mirror (cfg : Config) (s : HubState) (name : Option String)
    (origin : Option LocDict) (meta : Option MetaP) (location : Option LocDict)
    (source : Option String) (force : Bool) (now : ℚ) (canon : String) :
    ((update_station_presence cfg s name meta location source force now).1.origin =
      s.origin) ∧
    (canonical_station_key name = some canon →
     canonical_station_key (some s.primary_station_name) = some canon →
     (set_station_origin cfg s name origin).2 ≠ [] →
     ∃ e, lookupEntry (set_station_origin cfg s name origin).1.station_origins canon =
            some e ∧
          (set_station_origin cfg s name origin).1.origin = ⟨e.lat, e.lon, e.grid⟩ ∧
          Msg.origin (origin_payload (set_station_origin cfg s name origin).1) ∈
            (set_station_origin cfg s name origin).2) := by
  refine ⟨upd_origin_unchanged cfg s name meta location source force now, ?_⟩
  intro hc hprim hmsgs
  by_cases hg : ¬truthyS name ∨ origin = none
  · exact absurd (by rw [set_station_origin, if_pos hg]) hmsgs
  · cases hsafe : safe_station_origin (name.getD "") (origin.getD {}) with
    | none =>
      have hnil : (set_station_origin cfg s name origin).2 = [] := by
        rw [set_station_origin, if_neg hg]
        dsimp only
        rw [hsafe]
      exact absurd hnil hmsgs
    | some safe =>
      rcases sso_changed cfg s name origin canon safe hg hsafe hc hprim with h | h
      · exact absurd h hmsgs
      · exact h

/-- Counterexample for C7 as stated: a presence update carrying
coordinates for the primary station updates the stored entry but leaves
the global unnamed origin empty. -/
theorem C7_counterexample :
    canonical_station_key (some "Run 1") =
      canonical_station_key
        (some ({ primary_station_name := "Run 1" } : HubState).primary_station_name) ∧
    ((lookupEntry (update_station_presence {} { primary_station_name := "Run 1" }
        (some "Run 1") none
        (some { lat := some 1, lon := some 2, grid := some "AA11AA" }) none
        false 0).1.station_origins "RUN 1").map (fun e => e.lat) = some (some 1)) ∧
    ((update_station_presence {} { primary_station_name := "Run 1" }
        (some "Run 1") none
        (some { lat := some 1, lon := some 2, grid := some "AA11AA" }) none
        false 0).1.origin = ⟨none, none, none⟩) := by
  with_unfolding_all decide

example :
    (set_station_origin {} { primary_station_name := "Run 1" } (some "run 1")
      (some { lat := some 1, lon := some 2, grid := some "AA11aa" })).1.origin =
    ⟨some 1, some 2, some "AA11AA"⟩ := by with_unfolding_all decide

example :
    ((set_station_origin {} { primary_station_name := "Run 1" } (some "run 1")
      (some { lat := some 1, lon := some 2, grid := some "AA11aa" })).2.length = 3) ∧
    ((set_station_origin {} { primary_station_name := "Run 1" } (some "Other")
      (some { lat := some 1, lon := some 2, grid := some "AA11aa" })).1.origin =
      ⟨none, none, none⟩) ∧
    ((set_station_origin {} { primary_station_name := "Run 1" } (some "Other")
      (some { lat := some 1, lon := some 2, grid := some "AA11aa" })).2.length = 2) ∧
    ((set_station_origin {} { primary_station_name := "Run 1" } (some "run 1")
      (some { lat := some 1, lon := some 2, grid := some "AA11aa" })).2.map
        (fun m => match m with
          | Msg.origin _ => 0
          | Msg.station_origin _ => 1
          | Msg.status _ => 2
          | _ => 9) = [0, 1, 2]) := by
  with_unfolding_all decide

/-- Witness for C7 (amended): a changed update for the primary station
mirrors into the global origin. -/
theorem C7_witness :
    ∃ e, lookupEntry (set_station_origin {} { primary_station_name := "Run 1" }
          (some "run 1") (some { lat := some 1, lon := some 2, grid := some "AA11aa" })
        ).1.station_origins "RUN 1" = some e ∧
      (set_station_origin {} { primary_station_name := "Run 1" }
          (some "run 1") (some { lat := some 1, lon := some 2, grid := some "AA11aa" })
        ).1.origin = ⟨e.lat, e.lon, e.grid⟩ ∧
      Msg.origin (origin_payload (set_station_origin {} { primary_station_name := "Run 1" }
          (some "run 1") (some { lat := some 1, lon := some 2, grid := some "AA11aa" })
        ).1) ∈
        (set_station_origin {} { primary_station_name := "Run 1" }
          (some "run 1") (some { lat := some 1, lon := some 2, grid := some "AA11aa" })
        ).2 :=
  (C7_primary_mirror {} { primary_station_name := "Run 1" } (some "run 1")
      (some { lat := some 1, lon := some 2, grid := some "AA11aa" }) none none none
      false 0 "RUN 1").2
    (by with_unfolding_all decide) (by with_unfolding_all decide)
    (by with_unfolding_all decide)

/-- C6 (amended): a new subscriber is pushed, in order, a full status
snapshot, the primary origin when known, and the station origins, the
operator roster, the worked-section set and the worked-country set, each
when nonempty — and never any replay of path events or first-worked
notices. -/
theorem C6_join_snapshot (cfg : Config) (s : HubState) :
    connect cfg s =
      [Msg.status (compose_status cfg s)]
      ++ (if s.origin.lat ≠ none then [Msg.origin (origin_payload s)] else [])
      ++ (if s.station_origins ≠ [] then
            [Msg.station_origins (station_origin_entries s)] else [])
      ++ (if s.operators_seen ≠ [] then [Msg.operators (sortStr s.operators_seen)] else [])
      ++ (if s.sections_worked ≠ [] then
            [Msg.sections_worked (sortStr s.sections_worked)] else [])
      ++ (if s.countries_worked ≠ [] then
            [Msg.countries_worked (sortStr s.countries_worked)] else []) ∧
    (∀ p, Msg.path p ∉ connect cfg s) ∧
    (∀ k, Msg.section_hit k ∉ connect cfg s) ∧
    (∀ k, Msg.country_hit k ∉ connect cfg s) := by
  refine ⟨rfl, ?_, ?_, ?_⟩ <;>
    · intro x hx
      unfold connect at hx
      simp only [List.mem_append, List.mem_singleton] at hx
      rcases hx with ((((h | h) | h) | h) | h) | h <;> exact absurd h (by simp)

/-- Counterexample for C6 as stated: a subscriber joining a hub with no
operators on record receives no operator-roster message at all (only the
status snapshot), where the claim promises an unconditional roster push. -/
theorem C6_counterexample :
    connect {} ({} : HubState) = [Msg.status (compose_status {} {})] ∧
    ∀ l, Msg.operators l ∉ connect {} ({} : HubState) := by
  constructor
  · with_unfolding_all decide
  · intro l h
    have he : connect {} ({} : HubState) = [Msg.status (compose_status {} {})] := by
      with_unfolding_all decide
    rw [he] at h
    simp at h

/-- Witness for C6 (amended): a hub with one operator on record pushes
exactly the status snapshot followed by the roster. -/
theorem C6_witness :
    connect {} ({ operators_seen := ["K1ABC"] } : HubState) =
      [Msg.status (compose_status {} { operators_seen := ["K1ABC"] }),
       Msg.operators ["K1ABC"]] :=
  ((C6_join_snapshot {} { operators_seen := ["K1ABC"] }).1).trans
    (by with_unfolding_all decide)

lemma find?_popPending (l : List (String × PendingEntry)) (k : String) :
    (popPending l k).find? (fun p => p.1 = k) = none := by
  rw [List.find?_eq_none]
  intro x hx
  have := (List.mem_filter.mp hx).2
  simpa using this

/-- C9: a resolved contact submission arriving within 0.01 time-units of
the loop's previous emission is dropped — the pending entry for its call
is popped, nothing is broadcast, nothing is stashed, and `last_emit` is
unchanged; only with strictly more than 0.01 time-units elapsed is
`emit_path` invoked (which then sets `last_emit`). -/
theorem C9_rate_limit (cfg : Config) (ls : LoopState) (call_key : String)
    (dest : DestR) (base_meta : MetaIn) (origin_snapshot : Option OriginR)
    (now : ℚ) :
    (now - ls.last_emit ≤ 1/100 →
      handle_resolved_dest cfg ls call_key dest base_meta origin_snapshot now =
        ({ ls with hub :=
            { ls.hub with pending_meta := popPending ls.hub.pending_meta call_key } },
         []) ∧
      (handle_resolved_dest cfg ls call_key dest base_meta origin_snapshot
          now).1.hub.pending_meta.find? (fun p => p.1 = call_key) = none ∧
      (handle_resolved_dest cfg ls call_key dest base_meta origin_snapshot
          now).1.last_emit = ls.last_emit) ∧
    (now - ls.last_emit > 1/100 →
      handle_resolved_dest cfg ls call_key dest base_meta origin_snapshot now =
        ({ last_emit := now,
           hub := (emit_path cfg
             { ls.hub with pending_meta := popPending ls.hub.pending_meta call_key }
             (some dest) (some base_meta) (some cfg.ttl_seconds) origin_snapshot
             now).1 },
         (emit_path cfg
             { ls.hub with pending_meta := popPending ls.hub.pending_meta call_key }
             (some dest) (some base_meta) (some cfg.ttl_seconds) origin_snapshot
             now).2)) := by
  constructor
  · intro h
    have hcond : ¬(now - ls.last_emit > 1/100) := not_lt.mpr h
    have heq : handle_resolved_dest cfg ls call_key dest base_meta origin_snapshot now =
        ({ ls with hub :=
            { ls.hub with pending_meta := popPending ls.hub.pending_meta call_key } },
         []) := by
      rw [handle_resolved_dest, if_neg hcond]
    refine ⟨heq, ?_, ?_⟩
    · rw [heq]
      exact find?_popPending _ _
    · rw [heq]
  · intro h
    rw [handle_resolved_dest, if_pos h]

/-- Witness for C9: a submission 0.005 time-units after the previous
emission is dropped with only its pending entry popped. -/
theorem C9_witness :
    handle_resolved_dest {} ⟨0, {}⟩ "W1AW" ⟨some 1, some 2, none⟩ {} none (1/200) =
      ({ last_emit := 0, hub :=
          { ({} : HubState) with pending_meta := popPending ({} : HubState).pending_meta "W1AW" } },
       []) ∧
    (handle_resolved_dest {} ⟨0, {}⟩ "W1AW" ⟨some 1, some 2, none⟩ {} none
        (1/200)).1.hub.pending_meta.find? (fun p => p.1 = "W1AW") = none ∧
    (handle_resolved_dest {} ⟨0, {}⟩ "W1AW" ⟨some 1, some 2, none⟩ {} none
        (1/200)).1.last_emit = 0 :=
  (C9_rate_limit {} ⟨0, {}⟩ "W1AW" ⟨some 1, some 2, none⟩ {} none (1/200)).1
    (by with_unfolding_all decide)

/-! ## C2: the 6-character Maidenhead round trip -/

/-- A valid 6-character locator in the encoder's own output format:
field letters `A`–`R`, square digits, sub-square letters `a`–`x`. -/
def validLocator6 (g : String) : Bool :=
  match g.data with
  | [c0, c1, c2, c3, c4, c5] =>
      ('A' ≤ c0 && c0 ≤ 'R') && ('A' ≤ c1 && c1 ≤ 'R') &&
      ('0' ≤ c2 && c2 ≤ '9') && ('0' ≤ c3 && c3 ≤ '9') &&
      ('a' ≤ c4 && c4 ≤ 'x') && ('a' ≤ c5 && c5 ≤ 'x')
  | _ => false

lemma upper_ofNat : ∀ n : ℕ, n < 91 → 65 ≤ n →
    ¬(Char.ofNat n).isWhitespace ∧ (Char.ofNat n).toUpper = Char.ofNat n ∧
    pyStrIndex alphaU (Char.ofNat n) = some (n - 65) := by decide

lemma lower_ofNat : ∀ n : ℕ, n < 121 → 97 ≤ n →
    ¬(Char.ofNat n).isWhitespace ∧ (Char.ofNat n).toLower = Char.ofNat n ∧
    pyStrIndex alphaL (Char.ofNat n) = some (n - 97) := by decide

lemma pyDigit_ofNat : ∀ n : ℕ, n < 58 → 48 ≤ n →
    ¬(Char.ofNat n).isWhitespace ∧ pyDigit (Char.ofNat n) = some (n - 48) := by decide

lemma alphaU_get : ∀ n : ℕ, n < 26 → alphaU.get? n = some (Char.ofNat (65 + n)) := by
  decide

lemma alphaL_get : ∀ n : ℕ, n < 26 → alphaL.get? n = some (Char.ofNat (97 + n)) := by
  decide

lemma digit_toString : ∀ n : ℕ, n < 10 →
    (toString ((n : ℕ) : ℤ)).data = [Char.ofNat (48 + n)] := by decide

lemma ratFloor_eq (q : ℚ) : Rat.floor q = ⌊q⌋ := by
  rw [Rat.floor_def']
  exact Rat.floor_def.symm

lemma ratFloor_add_int (a : ℤ) (r : ℚ) (h0 : 0 ≤ r) (h1 : r < 1) :
    Rat.floor ((a : ℚ) + r) = a := by
  rw [ratFloor_eq, Int.floor_eq_iff]
  constructor
  · linarith
  · linarith

lemma pyTrunc_nonneg (q : ℚ) (h : 0 ≤ q) : pyTrunc q = Rat.floor q := by
  unfold pyTrunc
  rw [ratFloor_eq, Rat.floor_def]
  exact Int.tdiv_eq_ediv (Rat.num_nonneg.mpr h) (by positivity)

lemma pyStrip_six (a b c d e f : Char) (ha : ¬a.isWhitespace) (hf : ¬f.isWhitespace) :
    pyStrip ⟨[a, b, c, d, e, f]⟩ = ⟨[a, b, c, d, e, f]⟩ := by
  unfold pyStrip
  show (⟨(([a,b,c,d,e,f].dropWhile Char.isWhitespace).reverse.dropWhile
      Char.isWhitespace).reverse⟩ : String) = _
  rw [List.dropWhile_cons_of_neg (by simpa using ha)]
  rw [show [a,b,c,d,e,f].reverse = [f,e,d,c,b,a] from rfl]
  rw [List.dropWhile_cons_of_neg (by simpa using hf)]
  rfl

lemma decode_center (n0 n1 m2 m3 n4 n5 : ℕ)
    (b0l : 65 ≤ n0) (b0h : n0 ≤ 82) (b1l : 65 ≤ n1) (b1h : n1 ≤ 82)
    (b2l : 48 ≤ m2) (b2h : m2 ≤ 57) (b3l : 48 ≤ m3) (b3h : m3 ≤ 57)
    (b4l : 97 ≤ n4) (b4h : n4 ≤ 120) (b5l : 97 ≤ n5) (b5h : n5 ≤ 120) :
    latlon_from_maidenhead ⟨[Char.ofNat n0, Char.ofNat n1, Char.ofNat m2,
        Char.ofNat m3, Char.ofNat n4, Char.ofNat n5]⟩ =
      some { lat := ((n1 - 65 : ℕ) : ℚ) * 10 - 90 + ((m3 - 48 : ℕ) : ℚ) * 1 +
                    (((n5 - 97 : ℕ) : ℚ) * (5/2)) / 60 + ((5/2)/60)/2,
             lon := ((n0 - 65 : ℕ) : ℚ) * 20 - 180 + ((m2 - 48 : ℕ) : ℚ) * 2 +
                    (((n4 - 97 : ℕ) : ℚ) * 5) / 60 + ((5:ℚ)/60)/2 } := by
  obtain ⟨hw0, hu0, hx0⟩ := upper_ofNat n0 (by omega) b0l
  obtain ⟨hw1, hu1, hx1⟩ := upper_ofNat n1 (by omega) b1l
  obtain ⟨hw2, hd2⟩ := pyDigit_ofNat m2 (by omega) b2l
  obtain ⟨hw3, hd3⟩ := pyDigit_ofNat m3 (by omega) b3l
  obtain ⟨hw4, hl4, hx4⟩ := lower_ofNat n4 (by omega) b4l
  obtain ⟨hw5, hl5, hx5⟩ := lower_ofNat n5 (by omega) b5l
  unfold latlon_from_maidenhead
  rw [if_neg (by simp [String.ext_iff])]
  rw [pyStrip_six _ _ _ _ _ _ hw0 hw5]
  simp only [List.length_cons, List.length_nil]
  rw [if_neg (by omega)]
  rw [show (([Char.ofNat n0, Char.ofNat n1, Char.ofNat m2, Char.ofNat m3,
      Char.ofNat n4, Char.ofNat n5] : List Char).get? 0) = some (Char.ofNat n0) from rfl]
  rw [show (([Char.ofNat n0, Char.ofNat n1, Char.ofNat m2, Char.ofNat m3,
      Char.ofNat n4, Char.ofNat n5] : List Char).get? 1) = some (Char.ofNat n1) from rfl]
  rw [show (([Char.ofNat n0, Char.ofNat n1, Char.ofNat m2, Char.ofNat m3,
      Char.ofNat n4, Char.ofNat n5] : List Char).get? 2) = some (Char.ofNat m2) from rfl]
  rw [show (([Char.ofNat n0, Char.ofNat n1, Char.ofNat m2, Char.ofNat m3,
      Char.ofNat n4, Char.ofNat n5] : List Char).get? 3) = some (Char.ofNat m3) from rfl]
  dsimp only
  rw [hu0, hu1, hx0, hx1, hd2, hd3]
  simp only [Option.some_bind]
  rw [if_pos (by omega)]
  rw [show (([Char.ofNat n0, Char.ofNat n1, Char.ofNat m2, Char.ofNat m3,
      Char.ofNat n4, Char.ofNat n5] : List Char).get? 4) = some (Char.ofNat n4) from rfl]
  rw [show (([Char.ofNat n0, Char.ofNat n1, Char.ofNat m2, Char.ofNat m3,
      Char.ofNat n4, Char.ofNat n5] : List Char).get? 5) = some (Char.ofNat n5) from rfl]
  dsimp only
  rw [hl4, hl5, hx4, hx5]
  simp only [Option.some_bind]

lemma ratFloor_add_nat (a : ℕ) (r : ℚ) (h0 : 0 ≤ r) (h1 : r < 1) :
    Rat.floor ((a : ℚ) + r) = a := by
  have h := ratFloor_add_int (a : ℤ) r h0 h1
  rw [show (((a : ℤ) : ℚ)) = (a : ℚ) by push_cast; ring] at h
  exact h

lemma pyIndex_alphaU (n : ℕ) (h : n ≤ 25) :
    pyIndex alphaU (n : ℤ) = some (Char.ofNat (65 + n)) := by
  unfold pyIndex
  rw [if_pos (Int.natCast_nonneg n), Int.toNat_natCast]
  exact alphaU_get n (by omega)

lemma pyIndex_alphaL (n : ℕ) (h : n ≤ 25) :
    pyIndex alphaL (n : ℤ) = some (Char.ofNat (97 + n)) := by
  unfold pyIndex
  rw [if_pos (Int.natCast_nonneg n), Int.toNat_natCast]
  exact alphaL_get n (by omega)

lemma encode_center (i0 i1 d2 d3 i4 i5 : ℕ)
    (h0 : i0 ≤ 25) (h1 : i1 ≤ 25) (h2 : d2 ≤ 9) (h3 : d3 ≤ 9)
    (h4 : i4 ≤ 23) (h5 : i5 ≤ 23) :
    maidenhead_from_latlon
        ((i1 : ℚ) * 10 - 90 + (d3 : ℚ) * 1 + ((i5 : ℚ) * (5/2)) / 60 + ((5/2)/60)/2)
        ((i0 : ℚ) * 20 - 180 + (d2 : ℚ) * 2 + ((i4 : ℚ) * 5) / 60 + ((5:ℚ)/60)/2) =
      some ⟨[Char.ofNat (65 + i0), Char.ofNat (65 + i1), Char.ofNat (48 + d2),
             Char.ofNat (48 + d3), Char.ofNat (97 + i4), Char.ofNat (97 + i5)]⟩ := by
  have q0 : (i0 : ℚ) ≤ 25 := by exact_mod_cast h0
  have q1 : (i1 : ℚ) ≤ 25 := by exact_mod_cast h1
  have q2 : (d2 : ℚ) ≤ 9 := by exact_mod_cast h2
  have q3 : (d3 : ℚ) ≤ 9 := by exact_mod_cast h3
  have q4 : (i4 : ℚ) ≤ 23 := by exact_mod_cast h4
  have q5 : (i5 : ℚ) ≤ 23 := by exact_mod_cast h5
  have p0 : (0 : ℚ) ≤ i0 := by positivity
  have p2 : (0 : ℚ) ≤ d2 := by positivity
  have p3 : (0 : ℚ) ≤ d3 := by positivity
  have p4 : (0 : ℚ) ≤ i4 := by positivity
  have p5 : (0 : ℚ) ≤ i5 := by positivity
  set L : ℚ := (i0 : ℚ) * 20 - 180 + (d2 : ℚ) * 2 + ((i4 : ℚ) * 5) / 60 +
      ((5:ℚ)/60)/2 + 180 with hL
  set B : ℚ := (i1 : ℚ) * 10 - 90 + (d3 : ℚ) * 1 + ((i5 : ℚ) * (5/2)) / 60 +
      ((5/2)/60)/2 + 90 with hB
  have hLsplit : L = (i0 : ℚ) * 20 + ((d2 : ℚ) * 2 + (i4 : ℚ)/12 + 1/24) := by
    rw [hL]; ring
  have hBsplit : B = (i1 : ℚ) * 10 + ((d3 : ℚ) + (i5 : ℚ)/24 + 1/48) := by
    rw [hB]; ring
  -- longitude side
  have ef1 : pyFloorDiv L 20 = (i0 : ℤ) := by
    unfold pyFloorDiv
    rw [show L / 20 = (i0 : ℚ) + ((d2 : ℚ) * 2 + (i4 : ℚ)/12 + 1/24) / 20 by
      rw [hLsplit]; ring]
    exact ratFloor_add_nat i0 _ (by positivity) (by linarith)
  have em1 : pyMod L 20 = (d2 : ℚ) * 2 + (i4 : ℚ)/12 + 1/24 := by
    unfold pyFloorDiv at ef1
    unfold pyMod
    rw [ef1, hLsplit]
    push_cast
    ring
  have er1 : pyFloorDiv (pyMod L 20) 2 = (d2 : ℤ) := by
    unfold pyFloorDiv
    rw [em1, show ((d2 : ℚ) * 2 + (i4 : ℚ)/12 + 1/24) / 2 =
      (d2 : ℚ) + ((i4 : ℚ)/12 + 1/24) / 2 by ring]
    exact ratFloor_add_nat d2 _ (by positivity) (by linarith)
  have ef2 : Rat.floor (L / 2) = ((10 * i0 + d2 : ℕ) : ℤ) := by
    rw [show L / 2 = ((10 * i0 + d2 : ℕ) : ℚ) + ((i4 : ℚ)/12 + 1/24) / 2 by
      rw [hLsplit]; push_cast; ring]
    exact ratFloor_add_nat _ _ (by positivity) (by linarith)
  have em2 : pyMod L 2 = (i4 : ℚ)/12 + 1/24 := by
    unfold pyMod
    rw [ef2, hLsplit]
    push_cast
    ring
  have es1 : pyFloorDiv (pyMod L 2 * 60) 5 = (i4 : ℤ) := by
    unfold pyFloorDiv
    rw [em2, show ((i4 : ℚ)/12 + 1/24) * 60 / 5 = (i4 : ℚ) + 1/2 by ring]
    exact ratFloor_add_nat i4 _ (by norm_num) (by norm_num)
  -- latitude side
  have ff1 : pyFloorDiv B 10 = (i1 : ℤ) := by
    unfold pyFloorDiv
    rw [show B / 10 = (i1 : ℚ) + ((d3 : ℚ) + (i5 : ℚ)/24 + 1/48) / 10 by
      rw [hBsplit]; ring]
    exact ratFloor_add_nat i1 _ (by positivity) (by linarith)
  have fm1 : pyMod B 10 = (d3 : ℚ) + (i5 : ℚ)/24 + 1/48 := by
    unfold pyFloorDiv at ff1
    unfold pyMod
    rw [ff1, hBsplit]
    push_cast
    ring
  have fr1 : pyTrunc (pyMod B 10) = (d3 : ℤ) := by
    rw [pyTrunc_nonneg _ (by rw [fm1]; positivity), fm1,
      show (d3 : ℚ) + (i5 : ℚ)/24 + 1/48 = (d3 : ℚ) + ((i5 : ℚ)/24 + 1/48) by ring]
    exact ratFloor_add_nat d3 _ (by positivity) (by linarith)
  have ff2 : Rat.floor (B / 1) = ((10 * i1 + d3 : ℕ) : ℤ) := by
    rw [show B / 1 = ((10 * i1 + d3 : ℕ) : ℚ) + ((i5 : ℚ)/24 + 1/48) by
      rw [hBsplit]; push_cast; ring]
    exact ratFloor_add_nat _ _ (by positivity) (by linarith)
  have fm2 : pyMod B 1 = (i5 : ℚ)/24 + 1/48 := by
    unfold pyMod
    rw [ff2, hBsplit]
    push_cast
    ring
  have fs1 : pyFloorDiv (pyMod B 1 * 60) (5/2) = (i5 : ℤ) := by
    unfold pyFloorDiv
    rw [fm2, show ((i5 : ℚ)/24 + 1/48) * 60 / (5/2) = (i5 : ℚ) + 1/2 by ring]
    exact ratFloor_add_nat i5 _ (by norm_num) (by norm_num)
  -- assemble
  unfold maidenhead_from_latlon
  dsimp only
  rw [← hL, ← hB]
  rw [ef1, ff1, es1, fs1, er1, fr1]
  rw [pyIndex_alphaU i0 h0, pyIndex_alphaU i1 h1,
      pyIndex_alphaL i4 (by omega), pyIndex_alphaL i5 (by omega)]
  dsimp only
  rw [digit_toString d2 (by omega), digit_toString d3 (by omega)]
  rfl

/-- C2: every valid 6-character locator, decoded to the cell-center
coordinates and re-encoded at the same precision, returns itself. -/
theorem C2_grid_roundtrip (g : String) (h : validLocator6 g = true) :
    (latlon_from_maidenhead g).bind
      (fun p => maidenhead_from_latlon p.lat p.lon) = some g := by
  obtain ⟨d⟩ := g
  rcases d with _ | ⟨c0, _ | ⟨c1, _ | ⟨c2, _ | ⟨c3, _ | ⟨c4, _ | ⟨c5, _ | ⟨c6, t⟩⟩⟩⟩⟩⟩⟩
  · exact absurd h (by simp [validLocator6])
  · exact absurd h (by simp [validLocator6])
  · exact absurd h (by simp [validLocator6])
  · exact absurd h (by simp [validLocator6])
  · exact absurd h (by simp [validLocator6])
  · exact absurd h (by simp [validLocator6])
  case cons.cons.cons.cons.cons.cons.cons => exact absurd h (by simp [validLocator6])
  simp only [validLocator6, Bool.and_eq_true, decide_eq_true_eq] at h
  obtain ⟨⟨⟨⟨⟨⟨h0l, h0h⟩, h1l, h1h⟩, h2l, h2h⟩, h3l, h3h⟩, h4l, h4h⟩, h5l, h5h⟩ := h
  have n0l : 65 ≤ c0.toNat := h0l
  have n0h : c0.toNat ≤ 82 := h0h
  have n1l : 65 ≤ c1.toNat := h1l
  have n1h : c1.toNat ≤ 82 := h1h
  have m2l : 48 ≤ c2.toNat := h2l
  have m2h : c2.toNat ≤ 57 := h2h
  have m3l : 48 ≤ c3.toNat := h3l
  have m3h : c3.toNat ≤ 57 := h3h
  have n4l : 97 ≤ c4.toNat := h4l
  have n4h : c4.toNat ≤ 120 := h4h
  have n5l : 97 ≤ c5.toNat := h5l
  have n5h : c5.toNat ≤ 120 := h5h
  rw [show (⟨[c0, c1, c2, c3, c4, c5]⟩ : String) =
      ⟨[Char.ofNat c0.toNat, Char.ofNat c1.toNat, Char.ofNat c2.toNat,
        Char.ofNat c3.toNat, Char.ofNat c4.toNat, Char.ofNat c5.toNat]⟩ by
    simp [Char.ofNat_toNat]]
  rw [decode_center c0.toNat c1.toNat c2.toNat c3.toNat c4.toNat c5.toNat
      n0l n0h n1l n1h m2l m2h m3l m3h n4l n4h n5l n5h]
  simp only [Option.some_bind]
  rw [encode_center (c0.toNat - 65) (c1.toNat - 65) (c2.toNat - 48) (c3.toNat - 48)
      (c4.toNat - 97) (c5.toNat - 97)
      (by omega) (by omega) (by omega) (by omega) (by omega) (by omega)]
  rw [show 65 + (c0.toNat - 65) = c0.toNat by omega,
      show 65 + (c1.toNat - 65) = c1.toNat by omega,
      show 48 + (c2.toNat - 48) = c2.toNat by omega,
      show 48 + (c3.toNat - 48) = c3.toNat by omega,
      show 97 + (c4.toNat - 97) = c4.toNat by omega,
      show 97 + (c5.toNat - 97) = c5.toNat by omega]

/-- Witness for C2 at the locator `FN31pr`. -/
theorem C2_witness :
    (latlon_from_maidenhead "FN31pr").bind
      (fun p => maidenhead_from_latlon p.lat p.lon) = some "FN31pr" :=
  C2_grid_roundtrip "FN31pr" (by decide)
